import Mathlib

/-!
# Verification of the Ainux orchestration engine

A shallow embedding, in Lean 4, of the core orchestration components of the
Ainux repository (`src/ainux_ai/orchestration/`): the data model
(`models.py`), the safety checker (`safety.py`), the intent parser
(`intent.py`), the planner (`planner.py`), the execution runtime
(`execution.py`) and the orchestrator control loop (`orchestrator.py`).
Python dictionaries are embedded as insertion-ordered association lists,
Python values occurring in step parameters as the inductive `PyValue`, and
fallible Python code as `Except PyExc`.  Environment-dependent operations
(subprocess execution, the network model client, filesystem queries) are
abstracted as explicit function parameters or as a type enumerating their
observable outcomes.
-/

set_option maxHeartbeats 1000000
set_option linter.unusedVariables false

namespace Ainux

/-- Embedding of the Python values that occur in `parameters` dictionaries
and in parsed model JSON: `None`, booleans, numbers, strings, lists and
dicts.  Python numbers (int and float) are embedded as rationals. -/
inductive PyValue where
  | none
  | bool (b : Bool)
  | num (n : Rat)
  | str (s : String)
  | list (xs : List PyValue)
  | dict (entries : List (String × PyValue))

/-- A Python `Dict[str, object]`, embedded as an insertion-ordered
association list with unique keys. -/
abbrev Params := List (String × PyValue)

/-- Python truthiness (`bool(v)`): `None`, `False`, `0`, `""`, `[]` and
`{}` are falsy, everything else truthy. -/
def pyTruthy : PyValue → Bool
  | .none => false
  | .bool b => b
  | .num n => n != 0
  | .str s => s != ""
  | .list xs => !xs.isEmpty
  | .dict d => !d.isEmpty

/-- `d.get(k)`: the value stored at `k`, or Python `None` when the key is
absent (a stored `None` and a missing key are indistinguishable to all the
code embedded here, which only ever uses `.get`). -/
def pyGet (d : Params) (k : String) : PyValue :=
  match d.lookup k with
  | Option.some v => v
  | Option.none => PyValue.none

/-- `k in d` for a Python dict. -/
def pyHasKey (d : Params) (k : String) : Bool :=
  d.any (fun p => p.1 == k)

/-- `d[k] = v` on a Python dict: updates the value in place when the key
exists (keeping its position) and appends otherwise. -/
def pySet (d : Params) (k : String) (v : PyValue) : Params :=
  if pyHasKey d k then d.map (fun p => if p.1 == k then (k, v) else p)
  else d ++ [(k, v)]

/-- `d.setdefault(k, v)`. -/
def pySetDefault (d : Params) (k : String) (v : PyValue) : Params :=
  if pyHasKey d k then d else d ++ [(k, v)]

/-- `d.pop(k, None)`. -/
def pyPop (d : Params) (k : String) : Params :=
  d.filter (fun p => p.1 != k)

/-- Python `a or b` on two values: the first operand when truthy, the
second otherwise. -/
def pyOr (a b : PyValue) : PyValue :=
  if pyTruthy a then a else b

/-- Python `a or b` on two `Optional[str]` values, where both `None` and
`""` are falsy. -/
def pyOrStr (a b : Option String) : Option String :=
  match a with
  | Option.some s => if s = "" then b else Option.some s
  | Option.none => b

/-- The ASCII whitespace characters removed by Python `str.strip()` (the
unicode whitespace cases do not occur in this code base). -/
def pyIsSpace (c : Char) : Bool :=
  c == ' ' || c == '\t' || c == '\n' || c == '\r' || c == '\x0b' || c == '\x0c'

/-- Python `str.strip()`. -/
def pyStrip (s : String) : String :=
  String.mk (((s.data.dropWhile pyIsSpace).reverse.dropWhile pyIsSpace).reverse)

/-- Helper for `pySplitWs`: accumulate the current token (reversed) while
scanning. -/
def splitWsAux (acc : List Char) : List Char → List String
  | [] => if acc.isEmpty then [] else [String.mk acc.reverse]
  | c :: cs =>
    if pyIsSpace c then
      if acc.isEmpty then splitWsAux [] cs
      else String.mk acc.reverse :: splitWsAux [] cs
    else splitWsAux (c :: acc) cs

/-- Python `str.split()` (split on whitespace runs, discarding empties). -/
def pySplitWs (s : String) : List String :=
  splitWsAux [] s.data

/-- Python `str.lower()` (ASCII case folding; the Korean keywords the
source compares are unaffected by lowering in both languages). -/
def pyLower (s : String) : String :=
  String.mk (s.data.map Char.toLower)

/-- Python `str(v)` on an embedded value.  Faithful on the scalar cases
(`None`, booleans, numbers, strings), which are the only cases the
embedded code ever renders in the situations the claims reach; for
containers Python renders the elements recursively, which we abbreviate
to a fixed non-empty placeholder (the embedded code only ever tests such
a rendering for truthiness, and both renderings are non-empty). -/
def pyStr : PyValue → String
  | .none => "None"
  | .bool b => if b then "True" else "False"
  | .num n => toString n
  | .str s => s
  | .list _ => "[...]"
  | .dict _ => "{...}"

/-- Python exceptions that the embedded code raises or catches. -/
inductive PyExc where
  | keyError (msg : String)
  | valueError (msg : String)
  | typeError (msg : String)
  | attributeError (msg : String)
  | chatClientError (msg : String)
  | jsonDecodeError (msg : String)
deriving DecidableEq

/-- Python `str(exc)`. `KeyError` renders its argument with quotes, as in
CPython. -/
def PyExc.message : PyExc → String
  | .keyError m => "'" ++ m ++ "'"
  | .valueError m => m
  | .typeError m => m
  | .attributeError m => m
  | .chatClientError m => m
  | .jsonDecodeError m => m

/-! ## Data model (`orchestration/models.py`) -/

/-- `Intent` from `models.py`.  `confidence` is embedded as a rational. -/
structure Intent where
  raw_input : String
  action : String
  parameters : Params := []
  confidence : Rat := 0
  reasoning : Option String := Option.none
  context_snapshot : Option Params := Option.none

/-- `PlanStep` from `models.py`. -/
structure PlanStep where
  id : String
  action : String
  description : String
  parameters : Params := []
  depends_on : List String := []

/-- `ActionPlan` from `models.py`. -/
structure ActionPlan where
  intent : Intent
  steps : List PlanStep := []
  notes : Option String := Option.none

/-- `PlanReview` from `models.py`. -/
structure PlanReview where
  plan : ActionPlan
  next_steps : List PlanStep := []
  complete : Bool := false
  message : Option String := Option.none

/-- `SafetyReport` from `models.py`. -/
structure SafetyReport where
  approved_steps : List PlanStep := []
  blocked_steps : List PlanStep := []
  warnings : List String := []
  rationale : Option String := Option.none

/-- `ExecutionResult` from `models.py`. -/
structure ExecutionResult where
  step_id : String
  status : String
  output : Option String := Option.none
  error : Option String := Option.none
deriving DecidableEq

/-- `OrchestrationResult` from `models.py`. -/
structure OrchestrationResult where
  intent : Intent
  plan : ActionPlan
  safety : SafetyReport
  execution : List ExecutionResult
  reviews : List PlanReview := []

/-! ## Safety checker (`orchestration/safety.py`) -/

/-- The configuration of `SafetyChecker`: the deny-list of actions
(dataclass field `disallowed_actions`, default `("system.shutdown",)`).
The optional model client is represented at call sites by the parsed
outcome of its review, see `ModelSafetyResponse`. -/
structure SafetyChecker where
  disallowed_actions : List String := ["system.shutdown"]

/-- `SafetyChecker._baseline_report`: one pass over the plan's steps
appends each step whose action is in the deny-list to `blocked_steps`
(with a generated warning) and every other step to `approved_steps`;
equivalently, the three lists are filters of `plan.steps` in plan order. -/
def baselineReport (checker : SafetyChecker) (plan : ActionPlan) : SafetyReport :=
  { approved_steps :=
      plan.steps.filter (fun step => !checker.disallowed_actions.contains step.action)
    blocked_steps :=
      plan.steps.filter (fun step => checker.disallowed_actions.contains step.action)
    warnings :=
      (plan.steps.filter (fun step => checker.disallowed_actions.contains step.action)).map
        (fun step => "Step " ++ step.id ++ " uses disallowed action " ++ step.action ++ ".")
    rationale := Option.none }

/-- The payload read by `SafetyChecker._review_with_model` from a
successfully parsed model completion: the blocked-step id set
(`payload.get("blocked_steps") or []`), the warnings, and the rationale
(already coerced: Python's `str(rationale) if rationale else None`).
The network call and JSON decoding are environment-dependent and are
abstracted by this structure. -/
structure ModelSafetyResponse where
  blocked_ids : List String
  warnings : List String := []
  rationale : Option String := Option.none

/-- The report built by `SafetyChecker._review_with_model` from a parsed
response: partition the plan's steps by membership of their id in the
blocked set. -/
def reviewWithModel (plan : ActionPlan) (resp : ModelSafetyResponse) : SafetyReport :=
  { approved_steps := plan.steps.filter (fun step => !resp.blocked_ids.contains step.id)
    blocked_steps := plan.steps.filter (fun step => resp.blocked_ids.contains step.id)
    warnings := resp.warnings
    rationale := resp.rationale }

/-- An insertion-ordered Python dict from step id to step, as used inside
`SafetyChecker._merge_reports`. -/
abbrev StepDict := List (String × PlanStep)

/-- The key list of a step dict. -/
def stepDictKeys (d : StepDict) : List String := d.map Prod.fst

/-- `d[k] = v` on a step dict: update in place when the key exists
(keeping its position), append otherwise. -/
def stepDictInsert (d : StepDict) (k : String) (v : PlanStep) : StepDict :=
  if d.any (fun p => p.1 == k) then d.map (fun p => if p.1 == k then (k, v) else p)
  else d ++ [(k, v)]

/-- `d.pop(k, None)` on a step dict. -/
def stepDictPop (d : StepDict) (k : String) : StepDict :=
  d.filter (fun p => p.1 != k)

/-- `{step.id: step for step in steps}`. -/
def stepsToDict (steps : List PlanStep) : StepDict :=
  steps.foldl (fun d s => stepDictInsert d s.id s) []

/-- `SafetyChecker._merge_reports`.  The source's first `for` loop updates
the blocked dict and the approved dict independently at each iteration, so
it is rendered as two folds; the second loop's membership test reads the
fully updated blocked dict, as in the source (the two loops run in
sequence).  The merged warnings are Python's
`list({*baseline.warnings, *(extra.warnings or [])})` — a duplicate-free
union in unspecified set order, which the embedding fixes to a canonical
dedup order. -/
def mergeReports (baseline extra : SafetyReport) : SafetyReport :=
  let baselineBlocked0 := stepsToDict baseline.blocked_steps
  let baselineApproved0 := stepsToDict baseline.approved_steps
  let baselineBlocked :=
    extra.blocked_steps.foldl (fun d s => stepDictInsert d s.id s) baselineBlocked0
  let baselineApproved1 :=
    extra.blocked_steps.foldl (fun d s => stepDictPop d s.id) baselineApproved0
  let baselineApproved :=
    extra.approved_steps.foldl
      (fun d s =>
        if (stepDictKeys baselineBlocked).contains s.id then d
        else stepDictInsert d s.id s)
      baselineApproved1
  { approved_steps := baselineApproved.map Prod.snd
    blocked_steps := baselineBlocked.map Prod.snd
    warnings := (baseline.warnings ++ extra.warnings).dedup
    rationale := pyOrStr extra.rationale baseline.rationale }

/-- `SafetyChecker.review`: the baseline report, merged with the model
report when a client is configured and both the call and the JSON
decoding succeed (`resp = some r`); with no client, or when the model path
raises `ChatClientError`/`ValueError`/`JSONDecodeError`, the baseline
report alone is returned (`resp = none`). -/
def safetyReview (checker : SafetyChecker) (plan : ActionPlan)
    (resp : Option ModelSafetyResponse) : SafetyReport :=
  match resp with
  | Option.none => baselineReport checker plan
  | Option.some r => mergeReports (baselineReport checker plan) (reviewWithModel plan r)

/-! ### Step-dict lemmas -/

theorem stepDict_hasKey_iff (d : StepDict) (k : String) :
    d.any (fun p => p.1 == k) = true ↔ k ∈ stepDictKeys d := by
  simp [stepDictKeys, List.any_eq_true, List.mem_map]

theorem stepDictKeys_insert_of_mem (d : StepDict) (k : String) (v : PlanStep)
    (h : d.any (fun p => p.1 == k) = true) :
    stepDictKeys (stepDictInsert d k v) = stepDictKeys d := by
  rw [stepDictInsert, if_pos h, stepDictKeys, stepDictKeys, List.map_map]
  refine List.map_congr_left ?_
  intro p _
  by_cases hp : (p.1 == k) = true
  · simp only [Function.comp_apply, hp, if_pos]
    exact (beq_iff_eq.mp hp).symm
  · simp only [Function.comp_apply, hp]
    rw [if_neg (by simp [hp])]

theorem stepDictKeys_insert_of_not_mem (d : StepDict) (k : String) (v : PlanStep)
    (h : ¬ d.any (fun p => p.1 == k) = true) :
    stepDictKeys (stepDictInsert d k v) = stepDictKeys d ++ [k] := by
  rw [stepDictInsert, if_neg h, stepDictKeys, stepDictKeys, List.map_append]
  rfl

theorem mem_stepDictKeys_insert (d : StepDict) (k : String) (v : PlanStep) (x : String) :
    x ∈ stepDictKeys (stepDictInsert d k v) ↔ x ∈ stepDictKeys d ∨ x = k := by
  by_cases h : d.any (fun p => p.1 == k) = true
  · rw [stepDictKeys_insert_of_mem d k v h]
    have hk : k ∈ stepDictKeys d := (stepDict_hasKey_iff d k).mp h
    constructor
    · exact Or.inl
    · rintro (hx | rfl)
      · exact hx
      · exact hk
  · rw [stepDictKeys_insert_of_not_mem d k v h]
    simp

theorem stepDictKeys_insert_nodup (d : StepDict) (k : String) (v : PlanStep)
    (h : (stepDictKeys d).Nodup) :
    (stepDictKeys (stepDictInsert d k v)).Nodup := by
  by_cases hm : d.any (fun p => p.1 == k) = true
  · rw [stepDictKeys_insert_of_mem d k v hm]; exact h
  · rw [stepDictKeys_insert_of_not_mem d k v hm]
    refine h.append (List.nodup_singleton k) ?_
    intro x hx hxk
    rw [List.mem_singleton] at hxk
    exact hm ((stepDict_hasKey_iff d k).mpr (hxk ▸ hx))

theorem stepDictKeys_pop (d : StepDict) (k : String) :
    stepDictKeys (stepDictPop d k) = (stepDictKeys d).filter (fun x => x != k) := by
  induction d with
  | nil => rfl
  | cons p t ih =>
    by_cases hp : (p.1 != k) = true
    · simp only [stepDictPop, stepDictKeys, List.filter] at ih ⊢
      rw [hp]
      simp only [List.map_cons, List.filter_cons, hp]
      simpa [stepDictPop, stepDictKeys] using congrArg (p.1 :: ·) ih
    · have hp' : (p.1 != k) = false := by revert hp; cases p.1 != k <;> simp
      simp only [stepDictPop, stepDictKeys, List.filter_cons, List.map_cons, hp'] at ih ⊢
      exact ih

theorem mem_stepDictKeys_pop (d : StepDict) (k : String) (x : String) :
    x ∈ stepDictKeys (stepDictPop d k) ↔ x ∈ stepDictKeys d ∧ x ≠ k := by
  rw [stepDictKeys_pop]
  simp [List.mem_filter]

theorem stepDictKeys_pop_nodup (d : StepDict) (k : String)
    (h : (stepDictKeys d).Nodup) :
    (stepDictKeys (stepDictPop d k)).Nodup := by
  rw [stepDictKeys_pop]
  exact h.filter _

/-- Key/value consistency of a step dict: every stored value's id equals
its key.  All dicts occurring in `_merge_reports` satisfy it. -/
def StepDictConsistent (d : StepDict) : Prop := ∀ p ∈ d, p.1 = p.2.id

theorem stepDictInsert_consistent (d : StepDict) (k : String) (v : PlanStep)
    (hd : StepDictConsistent d) (hv : k = v.id) :
    StepDictConsistent (stepDictInsert d k v) := by
  intro p hp
  rw [stepDictInsert] at hp
  by_cases hm : d.any (fun q => q.1 == k) = true
  · rw [if_pos hm] at hp
    rcases List.mem_map.mp hp with ⟨q, hq, he⟩
    by_cases hqk : (q.1 == k) = true
    · rw [if_pos hqk] at he; subst he; exact hv
    · rw [if_neg hqk] at he; subst he; exact hd q hq
  · rw [if_neg hm] at hp
    rcases List.mem_append.mp hp with h1 | h1
    · exact hd p h1
    · rw [List.mem_singleton] at h1; subst h1; exact hv

theorem stepDictPop_consistent (d : StepDict) (k : String)
    (hd : StepDictConsistent d) :
    StepDictConsistent (stepDictPop d k) := by
  intro p hp
  exact hd p (List.mem_of_mem_filter hp)

theorem stepDict_values_ids (d : StepDict) (hd : StepDictConsistent d) :
    (d.map Prod.snd).map PlanStep.id = stepDictKeys d := by
  rw [stepDictKeys, List.map_map]
  refine List.map_congr_left ?_
  intro p hp
  exact (hd p hp).symm

/-! ### Fold lemmas for `_merge_reports` -/

theorem foldl_insert_keys_mem (steps : List PlanStep) :
    ∀ (d : StepDict) (k : String),
      k ∈ stepDictKeys (steps.foldl (fun d s => stepDictInsert d s.id s) d) ↔
        k ∈ stepDictKeys d ∨ k ∈ steps.map PlanStep.id := by
  induction steps with
  | nil => intro d k; simp
  | cons s t ih =>
    intro d k
    simp only [List.foldl_cons, List.map_cons, List.mem_cons]
    rw [ih, mem_stepDictKeys_insert]
    tauto

theorem foldl_insert_keys_nodup (steps : List PlanStep) :
    ∀ (d : StepDict), (stepDictKeys d).Nodup →
      (stepDictKeys (steps.foldl (fun d s => stepDictInsert d s.id s) d)).Nodup := by
  induction steps with
  | nil => intro d h; exact h
  | cons s t ih =>
    intro d h
    exact ih _ (stepDictKeys_insert_nodup d s.id s h)

theorem foldl_insert_consistent (steps : List PlanStep) :
    ∀ (d : StepDict), StepDictConsistent d →
      StepDictConsistent (steps.foldl (fun d s => stepDictInsert d s.id s) d) := by
  induction steps with
  | nil => intro d h; exact h
  | cons s t ih =>
    intro d h
    exact ih _ (stepDictInsert_consistent d s.id s h rfl)

theorem foldl_pop_keys_mem (steps : List PlanStep) :
    ∀ (d : StepDict) (k : String),
      k ∈ stepDictKeys (steps.foldl (fun d s => stepDictPop d s.id) d) ↔
        k ∈ stepDictKeys d ∧ k ∉ steps.map PlanStep.id := by
  induction steps with
  | nil => intro d k; simp
  | cons s t ih =>
    intro d k
    simp only [List.foldl_cons, List.map_cons, List.mem_cons]
    rw [ih, mem_stepDictKeys_pop]
    tauto

theorem foldl_pop_keys_nodup (steps : List PlanStep) :
    ∀ (d : StepDict), (stepDictKeys d).Nodup →
      (stepDictKeys (steps.foldl (fun d s => stepDictPop d s.id) d)).Nodup := by
  induction steps with
  | nil => intro d h; exact h
  | cons s t ih =>
    intro d h
    exact ih _ (stepDictKeys_pop_nodup d s.id h)

theorem foldl_pop_consistent (steps : List PlanStep) :
    ∀ (d : StepDict), StepDictConsistent d →
      StepDictConsistent (steps.foldl (fun d s => stepDictPop d s.id) d) := by
  induction steps with
  | nil => intro d h; exact h
  | cons s t ih =>
    intro d h
    exact ih _ (stepDictPop_consistent d s.id h)

theorem foldl_condInsert_keys_mem (K : List String) (steps : List PlanStep) :
    ∀ (d : StepDict) (k : String),
      k ∈ stepDictKeys (steps.foldl
          (fun d s => if K.contains s.id then d else stepDictInsert d s.id s) d) ↔
        k ∈ stepDictKeys d ∨ (k ∈ steps.map PlanStep.id ∧ k ∉ K) := by
  induction steps with
  | nil => intro d k; simp
  | cons s t ih =>
    intro d k
    simp only [List.foldl_cons, List.map_cons, List.mem_cons]
    by_cases hK : K.contains s.id = true
    · rw [if_pos hK, ih]
      have hsK : s.id ∈ K := by simpa using hK
      constructor
      · rintro (h | ⟨h1, h2⟩)
        · exact Or.inl h
        · exact Or.inr ⟨Or.inr h1, h2⟩
      · rintro (h | ⟨(rfl | h1), h2⟩)
        · exact Or.inl h
        · exact absurd hsK h2
        · exact Or.inr ⟨h1, h2⟩
    · rw [if_neg hK, ih, mem_stepDictKeys_insert]
      have hsK : s.id ∉ K := by simpa using hK
      constructor
      · rintro (⟨h | rfl⟩ | ⟨h1, h2⟩)
        · exact Or.inl h
        · exact Or.inr ⟨Or.inl rfl, hsK⟩
        · exact Or.inr ⟨Or.inr h1, h2⟩
      · rintro (h | ⟨(rfl | h1), h2⟩)
        · exact Or.inl (Or.inl h)
        · exact Or.inl (Or.inr rfl)
        · exact Or.inr ⟨h1, h2⟩

theorem foldl_condInsert_keys_nodup (K : List String) (steps : List PlanStep) :
    ∀ (d : StepDict), (stepDictKeys d).Nodup →
      (stepDictKeys (steps.foldl
          (fun d s => if K.contains s.id then d else stepDictInsert d s.id s) d)).Nodup := by
  induction steps with
  | nil => intro d h; exact h
  | cons s t ih =>
    intro d h
    by_cases hK : K.contains s.id = true
    · rw [List.foldl_cons, if_pos hK]; exact ih _ h
    · rw [List.foldl_cons, if_neg hK]; exact ih _ (stepDictKeys_insert_nodup d s.id s h)

theorem foldl_condInsert_consistent (K : List String) (steps : List PlanStep) :
    ∀ (d : StepDict), StepDictConsistent d →
      StepDictConsistent (steps.foldl
          (fun d s => if K.contains s.id then d else stepDictInsert d s.id s) d) := by
  induction steps with
  | nil => intro d h; exact h
  | cons s t ih =>
    intro d h
    by_cases hK : K.contains s.id = true
    · rw [List.foldl_cons, if_pos hK]; exact ih _ h
    · rw [List.foldl_cons, if_neg hK]; exact ih _ (stepDictInsert_consistent d s.id s h rfl)

theorem stepsToDict_keys_mem (steps : List PlanStep) (k : String) :
    k ∈ stepDictKeys (stepsToDict steps) ↔ k ∈ steps.map PlanStep.id := by
  rw [stepsToDict, foldl_insert_keys_mem]
  simp [stepDictKeys]

theorem stepsToDict_keys_nodup (steps : List PlanStep) :
    (stepDictKeys (stepsToDict steps)).Nodup :=
  foldl_insert_keys_nodup steps [] (by simp [stepDictKeys])

theorem stepsToDict_consistent (steps : List PlanStep) :
    StepDictConsistent (stepsToDict steps) :=
  foldl_insert_consistent steps [] (by intro p hp; cases hp)

/-! ### Characterization of `_merge_reports` -/

/-- The fully updated blocked dict of `_merge_reports`. -/
def mergedBlockedDict (b e : SafetyReport) : StepDict :=
  e.blocked_steps.foldl (fun d s => stepDictInsert d s.id s) (stepsToDict b.blocked_steps)

/-- The fully updated approved dict of `_merge_reports`. -/
def mergedApprovedDict (b e : SafetyReport) : StepDict :=
  e.approved_steps.foldl
    (fun d s =>
      if (stepDictKeys (mergedBlockedDict b e)).contains s.id then d
      else stepDictInsert d s.id s)
    (e.blocked_steps.foldl (fun d s => stepDictPop d s.id) (stepsToDict b.approved_steps))

theorem mergeReports_blocked_def (b e : SafetyReport) :
    (mergeReports b e).blocked_steps = (mergedBlockedDict b e).map Prod.snd := rfl

theorem mergeReports_approved_def (b e : SafetyReport) :
    (mergeReports b e).approved_steps = (mergedApprovedDict b e).map Prod.snd := rfl

theorem mergedBlockedDict_consistent (b e : SafetyReport) :
    StepDictConsistent (mergedBlockedDict b e) :=
  foldl_insert_consistent _ _ (stepsToDict_consistent _)

theorem mergedBlockedDict_keys_mem (b e : SafetyReport) (k : String) :
    k ∈ stepDictKeys (mergedBlockedDict b e) ↔
      k ∈ b.blocked_steps.map PlanStep.id ∨ k ∈ e.blocked_steps.map PlanStep.id := by
  rw [mergedBlockedDict, foldl_insert_keys_mem, stepsToDict_keys_mem]

theorem mergeReports_blocked_ids_mem (b e : SafetyReport) (k : String) :
    k ∈ (mergeReports b e).blocked_steps.map PlanStep.id ↔
      k ∈ b.blocked_steps.map PlanStep.id ∨ k ∈ e.blocked_steps.map PlanStep.id := by
  rw [mergeReports_blocked_def, stepDict_values_ids _ (mergedBlockedDict_consistent b e),
    mergedBlockedDict_keys_mem]

theorem mergeReports_blocked_ids_nodup (b e : SafetyReport) :
    ((mergeReports b e).blocked_steps.map PlanStep.id).Nodup := by
  rw [mergeReports_blocked_def, stepDict_values_ids _ (mergedBlockedDict_consistent b e)]
  exact foldl_insert_keys_nodup _ _ (stepsToDict_keys_nodup _)

theorem mergedApprovedDict_consistent (b e : SafetyReport) :
    StepDictConsistent (mergedApprovedDict b e) :=
  foldl_condInsert_consistent _ _ _ (foldl_pop_consistent _ _ (stepsToDict_consistent _))

theorem mergeReports_approved_ids_mem (b e : SafetyReport) (k : String) :
    k ∈ (mergeReports b e).approved_steps.map PlanStep.id ↔
      ((k ∈ b.approved_steps.map PlanStep.id ∧ k ∉ e.blocked_steps.map PlanStep.id) ∨
       (k ∈ e.approved_steps.map PlanStep.id ∧
         ¬(k ∈ b.blocked_steps.map PlanStep.id ∨ k ∈ e.blocked_steps.map PlanStep.id))) := by
  rw [mergeReports_approved_def, stepDict_values_ids _ (mergedApprovedDict_consistent b e),
    mergedApprovedDict, foldl_condInsert_keys_mem, foldl_pop_keys_mem, stepsToDict_keys_mem,
    mergedBlockedDict_keys_mem]

theorem mergeReports_approved_ids_nodup (b e : SafetyReport) :
    ((mergeReports b e).approved_steps.map PlanStep.id).Nodup := by
  rw [mergeReports_approved_def, stepDict_values_ids _ (mergedApprovedDict_consistent b e)]
  exact foldl_condInsert_keys_nodup _ _ _
    (foldl_pop_keys_nodup _ _ (stepsToDict_keys_nodup _))

/-! ### Partition property (claim C1) -/

theorem filter_not_append_filter_perm {α : Type} (l : List α) (p : α → Bool) :
    (l.filter (fun a => !p a) ++ l.filter p).Perm l := by
  induction l with
  | nil => simp
  | cons a t ih =>
    by_cases ha : p a = true
    · have hna : (!p a) = false := by rw [ha]; rfl
      simp only [List.filter_cons, ha, hna]
      exact List.Perm.trans List.perm_middle (ih.cons a)
    · have ha' : p a = false := by revert ha; cases p a <;> simp
      have hna : (!p a) = true := by rw [ha']; rfl
      simp only [List.filter_cons, ha', hna]
      exact (ih.cons a)

/-- Every step id of `plan` appears in exactly one of the report's two
lists: the two id lists are disjoint and their concatenation is a
permutation of the plan's step-id list. -/
def PartitionsPlan (report : SafetyReport) (plan : ActionPlan) : Prop :=
  List.Disjoint (report.approved_steps.map PlanStep.id) (report.blocked_steps.map PlanStep.id) ∧
  (report.approved_steps.map PlanStep.id ++ report.blocked_steps.map PlanStep.id).Perm
    (plan.steps.map PlanStep.id)

theorem baselineReport_partition_perm (checker : SafetyChecker) (plan : ActionPlan) :
    ((baselineReport checker plan).approved_steps.map PlanStep.id ++
      (baselineReport checker plan).blocked_steps.map PlanStep.id).Perm
      (plan.steps.map PlanStep.id) := by
  rw [baselineReport]
  simpa using
    (filter_not_append_filter_perm plan.steps
      (fun step => checker.disallowed_actions.contains step.action)).map PlanStep.id

theorem baselineReport_partitions (checker : SafetyChecker) (plan : ActionPlan)
    (h : (plan.steps.map PlanStep.id).Nodup) :
    PartitionsPlan (baselineReport checker plan) plan := by
  have hperm := baselineReport_partition_perm checker plan
  have hnd : ((baselineReport checker plan).approved_steps.map PlanStep.id ++
      (baselineReport checker plan).blocked_steps.map PlanStep.id).Nodup :=
    hperm.symm.nodup h
  exact ⟨List.disjoint_of_nodup_append hnd, hperm⟩

theorem reviewWithModel_partition_perm (plan : ActionPlan) (resp : ModelSafetyResponse) :
    ((reviewWithModel plan resp).approved_steps.map PlanStep.id ++
      (reviewWithModel plan resp).blocked_steps.map PlanStep.id).Perm
      (plan.steps.map PlanStep.id) := by
  rw [reviewWithModel]
  simpa using
    (filter_not_append_filter_perm plan.steps
      (fun step => resp.blocked_ids.contains step.id)).map PlanStep.id

theorem reviewWithModel_partitions (plan : ActionPlan) (resp : ModelSafetyResponse)
    (h : (plan.steps.map PlanStep.id).Nodup) :
    PartitionsPlan (reviewWithModel plan resp) plan := by
  have hperm := reviewWithModel_partition_perm plan resp
  have hnd : ((reviewWithModel plan resp).approved_steps.map PlanStep.id ++
      (reviewWithModel plan resp).blocked_steps.map PlanStep.id).Nodup :=
    hperm.symm.nodup h
  exact ⟨List.disjoint_of_nodup_append hnd, hperm⟩

theorem mergeReports_partitions (b e : SafetyReport) (plan : ActionPlan)
    (h : (plan.steps.map PlanStep.id).Nodup)
    (hb : PartitionsPlan b plan) (he : PartitionsPlan e plan) :
    PartitionsPlan (mergeReports b e) plan := by
  obtain ⟨hbd, hbp⟩ := hb
  obtain ⟨hed, hep⟩ := he
  have hbmem : ∀ k, k ∈ b.approved_steps.map PlanStep.id ∨ k ∈ b.blocked_steps.map PlanStep.id ↔
      k ∈ plan.steps.map PlanStep.id := by
    intro k
    rw [← List.mem_append]
    exact hbp.mem_iff
  have hemem : ∀ k, k ∈ e.approved_steps.map PlanStep.id ∨ k ∈ e.blocked_steps.map PlanStep.id ↔
      k ∈ plan.steps.map PlanStep.id := by
    intro k
    rw [← List.mem_append]
    exact hep.mem_iff
  have hdisj : List.Disjoint ((mergeReports b e).approved_steps.map PlanStep.id)
      ((mergeReports b e).blocked_steps.map PlanStep.id) := by
    intro k hka hkb
    rw [mergeReports_approved_ids_mem] at hka
    rw [mergeReports_blocked_ids_mem] at hkb
    rcases hka with ⟨hA0, hnB1⟩ | ⟨_, hnB⟩
    · rcases hkb with hB0 | hB1
      · exact hbd hA0 hB0
      · exact hnB1 hB1
    · exact hnB hkb
  refine ⟨hdisj, ?_⟩
  have hmnd : ((mergeReports b e).approved_steps.map PlanStep.id ++
      (mergeReports b e).blocked_steps.map PlanStep.id).Nodup :=
    (mergeReports_approved_ids_nodup b e).append (mergeReports_blocked_ids_nodup b e) hdisj
  refine (List.perm_ext_iff_of_nodup hmnd h).mpr ?_
  intro k
  rw [List.mem_append, mergeReports_approved_ids_mem, mergeReports_blocked_ids_mem]
  constructor
  · rintro ((⟨hA0, _⟩ | ⟨hA1, _⟩) | hB0 | hB1)
    · exact (hbmem k).mp (Or.inl hA0)
    · exact (hemem k).mp (Or.inl hA1)
    · exact (hbmem k).mp (Or.inr hB0)
    · exact (hemem k).mp (Or.inr hB1)
  · intro hk
    by_cases hB0 : k ∈ b.blocked_steps.map PlanStep.id
    · exact Or.inr (Or.inl hB0)
    by_cases hB1 : k ∈ e.blocked_steps.map PlanStep.id
    · exact Or.inr (Or.inr hB1)
    have hA0 : k ∈ b.approved_steps.map PlanStep.id := by
      rcases (hbmem k).mpr hk with h0 | h0
      · exact h0
      · exact absurd h0 hB0
    exact Or.inl (Or.inl ⟨hA0, hB1⟩)

/-- **C1.**  After `SafetyChecker.review` of any plan whose step ids are
distinct (an `ActionPlan` invariant per the data model), every step id of
the plan appears in exactly one of `approved_steps` and `blocked_steps`:
the two id lists are disjoint and together cover the plan's step ids
exactly once (their concatenation is a permutation of the plan's id list),
both on the baseline-only path (`resp = none`) and on the model-merged
path (`resp = some r`, for every model response). -/
theorem safetyReview_partitions_plan (checker : SafetyChecker) (plan : ActionPlan)
    (resp : Option ModelSafetyResponse)
    (h : (plan.steps.map PlanStep.id).Nodup) :
    PartitionsPlan (safetyReview checker plan resp) plan := by
  cases resp with
  | none => exact baselineReport_partitions checker plan h
  | some r =>
    exact mergeReports_partitions _ _ plan h
      (baselineReport_partitions checker plan h)
      (reviewWithModel_partitions plan r h)

/-- Witness for C1: a two-step plan (one disallowed action) with a model
response blocking the other step; the partition property holds on both
paths. -/
theorem safetyReview_partitions_plan_witness :
    ((([⟨"s1", "system.shutdown", "d", [], []⟩,
        ⟨"s2", "ui.assist_user", "d", [], []⟩] : List PlanStep).map PlanStep.id).Nodup) ∧
    PartitionsPlan
      (safetyReview {} ⟨⟨"r", "a", [], 0, Option.none, Option.none⟩,
          [⟨"s1", "system.shutdown", "d", [], []⟩, ⟨"s2", "ui.assist_user", "d", [], []⟩],
          Option.none⟩
        (Option.some ⟨["s2"], ["w"], Option.some "because"⟩))
      ⟨⟨"r", "a", [], 0, Option.none, Option.none⟩,
        [⟨"s1", "system.shutdown", "d", [], []⟩, ⟨"s2", "ui.assist_user", "d", [], []⟩],
        Option.none⟩ :=
  ⟨by decide,
    safetyReview_partitions_plan {} _ (Option.some ⟨["s2"], ["w"], Option.some "because"⟩)
      (by decide)⟩

/-- **C5.**  When `SafetyChecker.review` merges the baseline report with a
model-assisted report over the same plan (with distinct step ids), the
merge is deny-wins: every step id blocked by either pass ends blocked; a
step id approved by the model pass ends approved only if the baseline did
not block it; the merged warnings are exactly the union of the two passes'
warnings with duplicates removed; and the merged rationale is the model
pass's rationale when non-empty and the baseline's otherwise. -/
theorem mergeReports_deny_wins (checker : SafetyChecker) (plan : ActionPlan)
    (resp : ModelSafetyResponse)
    (h : (plan.steps.map PlanStep.id).Nodup) :
    (∀ k, k ∈ (baselineReport checker plan).blocked_steps.map PlanStep.id ∨
          k ∈ (reviewWithModel plan resp).blocked_steps.map PlanStep.id →
        k ∈ (mergeReports (baselineReport checker plan)
              (reviewWithModel plan resp)).blocked_steps.map PlanStep.id) ∧
    (∀ k, k ∈ (reviewWithModel plan resp).approved_steps.map PlanStep.id →
        k ∈ (mergeReports (baselineReport checker plan)
              (reviewWithModel plan resp)).approved_steps.map PlanStep.id →
        k ∉ (baselineReport checker plan).blocked_steps.map PlanStep.id) ∧
    (∀ w, w ∈ (mergeReports (baselineReport checker plan)
              (reviewWithModel plan resp)).warnings ↔
        w ∈ (baselineReport checker plan).warnings ∨
        w ∈ (reviewWithModel plan resp).warnings) ∧
    ((mergeReports (baselineReport checker plan)
        (reviewWithModel plan resp)).warnings.Nodup) ∧
    (∀ s, (reviewWithModel plan resp).rationale = Option.some s → s ≠ "" →
        (mergeReports (baselineReport checker plan)
          (reviewWithModel plan resp)).rationale = Option.some s) ∧
    (((reviewWithModel plan resp).rationale = Option.none ∨
        (reviewWithModel plan resp).rationale = Option.some "") →
      (mergeReports (baselineReport checker plan)
        (reviewWithModel plan resp)).rationale = (baselineReport checker plan).rationale) := by
  obtain ⟨hbd, _⟩ := baselineReport_partitions checker plan h
  refine ⟨?_, ?_, ?_, ?_, ?_, ?_⟩
  · intro k hk
    exact (mergeReports_blocked_ids_mem _ _ k).mpr hk
  · intro k hkA1 hkM hkB0
    rcases (mergeReports_approved_ids_mem _ _ k).mp hkM with ⟨hA0, _⟩ | ⟨_, hnB⟩
    · exact hbd hA0 hkB0
    · exact hnB (Or.inl hkB0)
  · intro w
    show w ∈ ((baselineReport checker plan).warnings ++
        (reviewWithModel plan resp).warnings).dedup ↔ _
    rw [List.mem_dedup, List.mem_append]
  · exact List.nodup_dedup _
  · intro s hs hne
    show pyOrStr (reviewWithModel plan resp).rationale
        (baselineReport checker plan).rationale = Option.some s
    rw [hs, pyOrStr, if_neg hne]
  · intro hs
    show pyOrStr (reviewWithModel plan resp).rationale
        (baselineReport checker plan).rationale = _
    rcases hs with hs | hs
    · rw [hs]; rfl
    · rw [hs, pyOrStr, if_pos rfl]

/-- Witness for C5: a two-step plan, deny-list blocking step `s1`, model
blocking step `s2` and approving `s1`, with overlapping warnings and an
empty model rationale. -/
theorem mergeReports_deny_wins_witness :
    ((([⟨"s1", "system.shutdown", "d", [], []⟩,
        ⟨"s2", "ui.assist_user", "d", [], []⟩] : List PlanStep).map PlanStep.id).Nodup) ∧
    (∀ s, (reviewWithModel
        ⟨⟨"r", "a", [], 0, Option.none, Option.none⟩,
          [⟨"s1", "system.shutdown", "d", [], []⟩, ⟨"s2", "ui.assist_user", "d", [], []⟩],
          Option.none⟩
        ⟨["s2"], ["w"], Option.none⟩).rationale = Option.some s → s ≠ "" →
      (mergeReports
        (baselineReport {}
          ⟨⟨"r", "a", [], 0, Option.none, Option.none⟩,
            [⟨"s1", "system.shutdown", "d", [], []⟩, ⟨"s2", "ui.assist_user", "d", [], []⟩],
            Option.none⟩)
        (reviewWithModel
          ⟨⟨"r", "a", [], 0, Option.none, Option.none⟩,
            [⟨"s1", "system.shutdown", "d", [], []⟩, ⟨"s2", "ui.assist_user", "d", [], []⟩],
            Option.none⟩
          ⟨["s2"], ["w"], Option.none⟩)).rationale = Option.some s) :=
  ⟨by decide,
    (mergeReports_deny_wins {}
      ⟨⟨"r", "a", [], 0, Option.none, Option.none⟩,
        [⟨"s1", "system.shutdown", "d", [], []⟩, ⟨"s2", "ui.assist_user", "d", [], []⟩],
        Option.none⟩
      ⟨["s2"], ["w"], Option.none⟩ (by decide)).2.2.2.2.1⟩

/-! ## Planner (`orchestration/planner.py`): dependency repair -/

/-- Match a literal pattern at the head of a character list, returning the
remainder on success. -/
def matchLiteral : List Char → List Char → Option (List Char)
  | [], cs => Option.some cs
  | _ :: _, [] => Option.none
  | p :: ps, c :: cs => if c = p then matchLiteral ps cs else Option.none

/-- Try to match `pre ([^stop]+) post` at the head of `cs`, returning the
captured group.  Every regex used by `Planner._extract_missing_dependency`
has this shape; the capture is a maximal run of non-`stop` characters and
`post` is empty or starts with a `stop` character, so the greedy Python
semantics are deterministic (no backtracking can produce a different
match at the same start position). -/
def captureAt (pre : List Char) (stop : Char → Bool) (post : List Char)
    (cs : List Char) : Option String :=
  match matchLiteral pre cs with
  | Option.none => Option.none
  | Option.some rest =>
    let run := rest.takeWhile (fun c => !stop c)
    let rest2 := rest.dropWhile (fun c => !stop c)
    if run.isEmpty then Option.none
    else
      match matchLiteral post rest2 with
      | Option.none => Option.none
      | Option.some _ => Option.some (String.mk run)

/-- `re.search` for such a pattern: the match at the leftmost starting
position wins. -/
def searchCapture (pre : List Char) (stop : Char → Bool) (post : List Char) :
    List Char → Option String
  | [] => captureAt pre stop post []
  | c :: cs =>
    match captureAt pre stop post (c :: cs) with
    | Option.some r => Option.some r
    | Option.none => searchCapture pre stop post cs

/-- A `(pre, stop, post)` pattern triple. -/
abbrev CapturePattern := List Char × (Char → Bool) × List Char

/-- The `python_patterns` table of `_extract_missing_dependency`, in
source order. -/
def pythonPatterns : List CapturePattern :=
  [ ("requires the '".data, (fun c => c == '\''), "' package".data),
    ("requires the \"".data, (fun c => c == '"'), "\" package".data),
    ("No module named '".data, (fun c => c == '\''), "'".data),
    ("No module named \"".data, (fun c => c == '"'), "\"".data),
    ("ModuleNotFoundError: No module named '".data, (fun c => c == '\''), "'".data),
    ("ModuleNotFoundError: No module named \"".data, (fun c => c == '"'), "\"".data) ]

/-- The `command_patterns` table of `_extract_missing_dependency`, in
source order (`[^;\s]+` stops at `;` and whitespace). -/
def commandPatterns : List CapturePattern :=
  [ ("Command not found: ".data, (fun c => c == ';' || pyIsSpace c), []),
    ("command not found: ".data, (fun c => c == ';' || pyIsSpace c), []),
    ("Command '".data, (fun c => c == '\''), "' not found".data),
    ("command '".data, (fun c => c == '\''), "' not found".data) ]

/-- Search the pattern tables in order, as the source's `for pattern in
patterns` loops do. -/
def searchFirst (pats : List CapturePattern) (cs : List Char) : Option String :=
  match pats with
  | [] => Option.none
  | (pre, stop, post) :: rest =>
    match searchCapture pre stop post cs with
    | Option.some r => Option.some r
    | Option.none => searchFirst rest cs

/-- The dependency descriptor dict returned by
`Planner._extract_missing_dependency` (string-valued entries; an absent
key is `none`). -/
structure Dependency where
  type_ : Option String := Option.none
  package : Option String := Option.none
  module : Option String := Option.none
  command : Option String := Option.none
deriving DecidableEq

/-- `Planner._extract_missing_dependency`: sniff the result's
`error or output` text for a missing Python module (returning a
python-typed dependency) or a missing external command (returning a
system-typed dependency). -/
def extractMissingDependency (result : ExecutionResult) : Option Dependency :=
  match pyOrStr result.error result.output with
  | Option.none => Option.none
  | Option.some message =>
    if message = "" then Option.none
    else
      let text := pyStrip message
      match searchFirst pythonPatterns text.data with
      | Option.some module =>
        Option.some { type_ := Option.some "python", package := Option.some module,
                      module := Option.some module }
      | Option.none =>
        match searchFirst commandPatterns text.data with
        | Option.some command =>
          Option.some { type_ := Option.some "system", package := Option.some command,
                        command := Option.some command }
        | Option.none => Option.none

/-- Python truthiness of an `Optional[str]`: `None` and `""` are falsy. -/
def optStrTruthy : Option String → Bool
  | Option.none => false
  | Option.some s => s ≠ ""

/-- The per-step check of `_plan_contains_dependency`'s `system` branch:
an `apt`/`apt-get install` run-command step whose parts mention the
command. -/
def stepRemediatesSystem (command : String) (step : PlanStep) : Bool :=
  if step.action ≠ "system.run_command" then false
  else
    match pyGet step.parameters "command" with
    | PyValue.str s =>
      match pySplitWs s with
      | [] => false
      | executable :: restParts =>
        decide (executable = "apt" ∨ executable = "apt-get") &&
        (executable :: restParts).contains "install" &&
        (executable :: restParts).contains command
    | PyValue.list xs =>
      match xs.map pyStr with
      | [] => false
      | executable :: restParts =>
        decide (executable = "apt" ∨ executable = "apt-get") &&
        (executable :: restParts).contains "install" &&
        (executable :: restParts).contains command
    | _ => false

/-- The per-step check of `_plan_contains_dependency`'s python branch: an
ensure-python-package step whose `package` or `module` matches. -/
def stepRemediatesPython (package module : Option String) (step : PlanStep) : Bool :=
  if step.action ≠ "system.ensure_python_package" then false
  else
    let stepPackage := pyStrip (pyStr (pyOr (pyGet step.parameters "package") (PyValue.str "")))
    let stepModule := pyStrip (pyStr (pyOr (pyGet step.parameters "module") (PyValue.str "")))
    (optStrTruthy package && decide (Option.some stepPackage = package)) ||
    (optStrTruthy module && decide (Option.some stepModule = module))

/-- `Planner._plan_contains_dependency`. -/
def planContainsDependency (plan : ActionPlan) (dependency : Dependency) : Bool :=
  let depType := pyOrStr dependency.type_ (Option.some "python")
  let package := dependency.package
  let module := pyOrStr dependency.module package
  if depType = Option.some "system" then
    let command := pyOrStr dependency.command package
    if !optStrTruthy command then false
    else plan.steps.any (stepRemediatesSystem (command.getD ""))
  else
    plan.steps.any (stepRemediatesPython package module)

/-- `list(dict.fromkeys(xs))`: deduplicate keeping first occurrences. -/
def pyDedupFirstAux (seen : List String) : List String → List String
  | [] => []
  | x :: xs =>
    if seen.contains x then pyDedupFirstAux seen xs
    else x :: pyDedupFirstAux (seen ++ [x]) xs

/-- `list(dict.fromkeys(xs))`. -/
def pyDedupFirst (xs : List String) : List String := pyDedupFirstAux [] xs

/-- Python `str.replace` for the single-character patterns used by
`_inject_dependency_step` (its patterns are `"."` and `"-"`; for a
one-character pattern the replacement is exactly a character map). -/
def pyReplaceChar (s : String) (pattern replacement : Char) : String :=
  String.mk (s.data.map (fun c => if c = pattern then replacement else c))

/-- The insertion loop of `_inject_dependency_step`: walk the steps and,
at the first step carrying the failing id, insert the ensure step right
before it, rewiring that step's `depends_on` when the failing step was
found in the plan; all other steps are kept unchanged. -/
def insertBeforeFailing (ensureStep : PlanStep) (failingStepId : String)
    (failingFound : Bool) : List PlanStep → List PlanStep
  | [] => []
  | step :: rest =>
    if step.id = failingStepId then
      let step' :=
        if failingFound then
          { step with depends_on := pyDedupFirst (step.depends_on ++ [ensureStep.id]) }
        else step
      ensureStep :: step' :: rest
    else step :: insertBeforeFailing ensureStep failingStepId failingFound rest

/-- `Planner._inject_dependency_step`. -/
def injectDependencyStep (plan : ActionPlan) (failingStepId : String)
    (dependency : Dependency) : ActionPlan :=
  let depType := pyOrStr dependency.type_ (Option.some "python")
  let package := pyOrStr dependency.package dependency.module
  let module := pyOrStr dependency.module package
  let command := pyOrStr dependency.command package
  if !optStrTruthy package && !optStrTruthy command then plan
  else
    let failingStep := plan.steps.find? (fun step => step.id == failingStepId)
    let dependsOn :=
      match failingStep with
      | Option.some s => s.depends_on
      | Option.none => []
    if depType = Option.some "system" then
      if !optStrTruthy command then plan
      else
        let cmd := command.getD ""
        let ensureStep : PlanStep :=
          { id := "install_" ++ pyReplaceChar (pyReplaceChar cmd '.' '_') '-' '_'
            action := "system.run_command"
            description := "Install system package '" ++ cmd ++ "' before retrying the step."
            parameters :=
              [("command", PyValue.list [PyValue.str "apt", PyValue.str "install",
                  PyValue.str cmd, PyValue.str "-y"]),
               ("original_request", PyValue.str plan.intent.raw_input)]
            depends_on := dependsOn }
        { plan with steps :=
            if plan.steps.any (fun s => s.id == failingStepId) then
              insertBeforeFailing ensureStep failingStepId failingStep.isSome plan.steps
            else plan.steps ++ [ensureStep] }
    else
      if !optStrTruthy package then plan
      else
        let pkg := package.getD ""
        let modName := (pyOrStr module package).getD ""
        let ensureStep : PlanStep :=
          { id := "ensure_" ++ pyReplaceChar modName '.' '_'
            action := "system.ensure_python_package"
            description :=
              "Install required Python package '" ++ pkg ++ "' before retrying the step."
            parameters :=
              [("package", PyValue.str pkg), ("module", PyValue.str (module.getD "")),
               ("original_request", PyValue.str plan.intent.raw_input)]
            depends_on := dependsOn }
        { plan with steps :=
            if plan.steps.any (fun s => s.id == failingStepId) then
              insertBeforeFailing ensureStep failingStepId failingStep.isSome plan.steps
            else plan.steps ++ [ensureStep] }

/-- `status in {"blocked", "error"}`. -/
def isFailureStatus (status : String) : Bool :=
  status = "blocked" || status = "error"

/-- The `completed_ids` set of `_heuristic_review`: step ids whose status
is not in `{"blocked", "error"}`. -/
def reviewCompletedIds (history : List ExecutionResult) : List String :=
  (history.filter (fun r => !isFailureStatus r.status)).map ExecutionResult.step_id

/-- The `updated_plan` of `_heuristic_review`: the plan with a remediation
step injected when the last result reveals a missing dependency that no
existing step remediates. -/
def reviewUpdatedPlan (plan : ActionPlan) (last : ExecutionResult) : ActionPlan :=
  match extractMissingDependency last with
  | Option.some dep =>
    if !planContainsDependency plan dep then injectDependencyStep plan last.step_id dep
    else plan
  | Option.none => plan

/-- `failure_counts.get(last.step_id, 0)` of `_heuristic_review`: how many
history entries failed with the last result's step id. -/
def reviewAttempts (history : List ExecutionResult) (last : ExecutionResult) : Nat :=
  (history.filter (fun r => isFailureStatus r.status && r.step_id == last.step_id)).length

/-- The `complete_override` flag of `_heuristic_review`: the last result
failed and its step id has failed at least 3 times. -/
def reviewCompleteOverride (history : List ExecutionResult) (last : ExecutionResult) : Bool :=
  isFailureStatus last.status && decide (3 ≤ reviewAttempts history last)

/-- The `skipped_steps` set of `_heuristic_review`. -/
def reviewSkipped (history : List ExecutionResult) (last : ExecutionResult) : List String :=
  if reviewCompleteOverride history last then [last.step_id] else []

/-- The operator message of `_heuristic_review`: `last.output or
last.error`, annotated with the attempt count when the retry bound was
hit and the message is truthy. -/
def reviewMessage (history : List ExecutionResult) (last : ExecutionResult) : Option String :=
  let message0 := pyOrStr last.output last.error
  if reviewCompleteOverride history last then
    match message0 with
    | Option.some m =>
      if m ≠ "" then
        Option.some (m ++ " (stopped after " ++ toString (reviewAttempts history last)
          ++ " failures)")
      else message0
    | Option.none => message0
  else message0

/-- The `next_steps` of `_heuristic_review`: steps of the updated plan
that are neither completed nor skipped. -/
def reviewNextSteps (plan : ActionPlan) (history : List ExecutionResult)
    (last : ExecutionResult) : List PlanStep :=
  (reviewUpdatedPlan plan last).steps.filter
    (fun step => !(reviewCompletedIds history).contains step.id &&
      !(reviewSkipped history last).contains step.id)

/-- `Planner._heuristic_review` when the history is non-empty, assembled
from the named components above. -/
def heuristicReviewLast (plan : ActionPlan) (history : List ExecutionResult)
    (last : ExecutionResult) : PlanReview :=
  { plan := reviewUpdatedPlan plan last
    next_steps := reviewNextSteps plan history last
    complete := reviewCompleteOverride history last || (reviewNextSteps plan history last).isEmpty
    message := reviewMessage history last }

/-- `Planner._heuristic_review`: mark steps completed unless their latest
status was a failure, inject a remediation step when the last result's
text reveals a missing dependency not already remediated, and permanently
skip a step once it has failed three times (annotating the message with
the attempt count). -/
def heuristicReview (plan : ActionPlan) (history : List ExecutionResult) : PlanReview :=
  match history.getLast? with
  | Option.none =>
    let nextSteps :=
      plan.steps.filter (fun step => !(reviewCompletedIds history).contains step.id)
    { plan := plan, next_steps := nextSteps, complete := nextSteps.isEmpty,
      message := Option.none }
  | Option.some last => heuristicReviewLast plan history last

/-! ## Planner (`orchestration/planner.py`): heuristic planning -/

/-- `d.get(k, default)` (a stored `None` is returned as-is, only a missing
key yields the default, as in Python). -/
def pyGetD (d : Params) (k : String) (v : PyValue) : PyValue :=
  match d.lookup k with
  | Option.some w => w
  | Option.none => v

/-- `{**d1, **d2}`: merge with `d2` overriding, first-insertion order. -/
def pyMerge (d1 d2 : Params) : Params :=
  d2.foldl (fun acc p => pySet acc p.1 p.2) d1

/-- `Planner._looks_like_application_launch`. -/
def looksLikeApplicationLaunch (parameters : Params) : Bool :=
  if parameters.isEmpty then false
  else
    let target :=
      pyOr (pyGet parameters "target")
        (pyOr (pyGet parameters "application") (pyGet parameters "app"))
    let targetIsLaunch :=
      match target with
      | PyValue.str s => pyStrip s != ""
      | _ => false
    if targetIsLaunch then true
    else
      let command := pyGet parameters "command"
      let commandIsLaunch :=
        match command with
        | PyValue.str s => pyStrip s != ""
        | PyValue.list xs => xs.any (fun part => pyStrip (pyStr part) != "")
        | _ => false
      if commandIsLaunch then true
      else
        match pyGet parameters "requested_operation" with
        | PyValue.str op =>
          let normalized := pyLower (pyStrip op)
          if ["execute", "excute", "run", "launch", "start", "실행", "켜줘"].contains normalized
          then pyTruthy target
          else false
        | _ => false

/-- `Planner._build_launch_step`. -/
def buildLaunchStep (parameters : Params) (request : String) : PlanStep :=
  let launchParameters := pySetDefault parameters "original_request" (PyValue.str request)
  let launchParameters :=
    if pyHasKey launchParameters "target" then launchParameters
    else
      match pyOr (pyGet launchParameters "application") (pyGet launchParameters "app") with
      | PyValue.str s =>
        if pyStrip s ≠ "" then pySet launchParameters "target" (PyValue.str (pyStrip s))
        else launchParameters
      | _ => launchParameters
  { id := "launch_application"
    action := "system.launch_application"
    description := "Launch the requested desktop application using Ubuntu defaults."
    parameters := launchParameters
    depends_on := [] }

/-- The `inspect_command` parameters of the `system.execute_low_level`
branch of `_heuristic_plan` (built as an ordered dict and then filtered of
`None`/`""` values). -/
def lowLevelInspectParams (metadata : PyValue) (parameters : Params)
    (rawInput : String) : Params :=
  let base : Params :=
    [("target", PyValue.none), ("candidate", PyValue.none),
     ("original_request", PyValue.str rawInput)]
  let withTarget :=
    match metadata with
    | PyValue.dict md =>
      let candidate := pyGet md "candidate"
      let targetInfo := pyOr (pyGet md "target") (PyValue.dict [])
      let base1 :=
        match candidate with
        | PyValue.str c =>
          if pyStrip c ≠ "" then
            pySet (pySet base "target" (PyValue.str (pyStrip c)))
              "candidate" (PyValue.str (pyStrip c))
          else
            match targetInfo with
            | PyValue.dict ti =>
              match pyGet ti "executable" with
              | PyValue.str e =>
                if pyStrip e ≠ "" then pySet base "target" (PyValue.str (pyStrip e)) else base
              | _ => base
            | _ => base
        | _ =>
          match targetInfo with
          | PyValue.dict ti =>
            match pyGet ti "executable" with
            | PyValue.str e =>
              if pyStrip e ≠ "" then pySet base "target" (PyValue.str (pyStrip e)) else base
            | _ => base
          | _ => base
      if pyTruthy metadata then pySet base1 "_ainux_low_level" metadata else base1
    | _ =>
      match pyOr (pyGet parameters "target") (pyGet parameters "program") with
      | PyValue.str c =>
        if pyStrip c ≠ "" then pySet base "target" (PyValue.str (pyStrip c)) else base
      | _ => base
  withTarget.filter (fun p =>
    match p.2 with
    | PyValue.none => false
    | PyValue.str s => s != ""
    | _ => true)

/-- `Planner._heuristic_plan`.  `prepareLowLevel` stands for
`prepare_low_level_parameters` (`low_level.py`), which resolves
executables against the filesystem (`shutil.which`, `os.access`) and
synthesizes launcher sources; being environment-dependent it is taken as
an explicit function parameter. -/
def heuristicPlan (prepareLowLevel : Params → Params) (intent : Intent)
    (context : Params) : ActionPlan :=
  let action := intent.action
  let parameters :=
    pySetDefault intent.parameters "original_request" (PyValue.str intent.raw_input)
  let steps : List PlanStep :=
    if looksLikeApplicationLaunch parameters &&
        (action == "ui.assist_user" || action == "analysis.review_request") then
      [buildLaunchStep parameters intent.raw_input]
    else if action == "system.optimize_resources" then
      [ { id := "collect_metrics", action := "system.collect_resource_metrics",
          description := "Collect CPU, memory, and IO usage to understand current load.",
          parameters := [("limit", pyGetD parameters "limit" (PyValue.num 10)),
                         ("original_request", PyValue.str intent.raw_input)],
          depends_on := [] },
        { id := "analyze_hotspots", action := "system.analyze_resource_hotspots",
          description := "Analyze metrics to identify processes or services causing pressure.",
          parameters := [("cpu_threshold", pyGetD parameters "cpu_threshold" (PyValue.num 40)),
                         ("memory_threshold", pyGetD parameters "memory_threshold" (PyValue.num 30)),
                         ("original_request", PyValue.str intent.raw_input)],
          depends_on := ["collect_metrics"] },
        { id := "apply_tuning", action := "system.apply_resource_tuning",
          description := "Apply scheduling or limit adjustments to balance resource usage.",
          parameters := parameters,
          depends_on := ["analyze_hotspots"] } ]
    else if action == "process.manage" then
      [ { id := "list_processes", action := "process.enumerate",
          description := "List relevant processes and capture their current state.",
          parameters := pyMerge [("limit", pyGetD parameters "limit" (PyValue.num 25))] parameters,
          depends_on := [] },
        { id := "evaluate_process_actions", action := "process.evaluate_actions",
          description := "Decide whether to reprioritize, pause, or terminate processes.",
          parameters := parameters,
          depends_on := ["list_processes"] },
        { id := "apply_process_change", action := "process.apply_management",
          description := "Perform the selected process management operations.",
          parameters := parameters,
          depends_on := ["evaluate_process_actions"] } ]
    else if action == "ui.assist_user" then
      if looksLikeApplicationLaunch parameters then
        [buildLaunchStep parameters intent.raw_input]
      else
        [ { id := "gather_context", action := "ui.collect_user_context",
            description := "Gather current desktop state and user goal for guidance.",
            parameters := parameters, depends_on := [] },
          { id := "present_walkthrough", action := "ui.present_walkthrough",
            description := "Prepare a walkthrough describing how to accomplish the task in the UI.",
            parameters := parameters, depends_on := ["gather_context"] },
          { id := "queue_actions", action := "ui.queue_actions",
            description := "Queue any scripted clicks or commands the assistant can trigger on behalf of the user.",
            parameters := parameters, depends_on := ["present_walkthrough"] } ]
    else if action == "ui.control_pointer" then
      [ { id := "ensure_pointer_dependencies", action := "system.ensure_python_package",
          description := "Ensure the pointer automation dependency is installed.",
          parameters := [("package", PyValue.str "pyautogui"), ("module", PyValue.str "pyautogui"),
                         ("original_request", PyValue.str intent.raw_input)],
          depends_on := [] },
        { id := "capture_pointer_state", action := "ui.collect_user_context",
          description := "Capture current pointer position and focused surface for safety.",
          parameters := [("focus", PyValue.str "pointer")],
          depends_on := ["ensure_pointer_dependencies"] },
        { id := "apply_pointer_action", action := "ui.control_pointer",
          description := "Apply the requested pointer movement or click on behalf of the user.",
          parameters := parameters,
          depends_on := ["capture_pointer_state"] } ]
    else if action == "system.launch_application" then
      [buildLaunchStep parameters intent.raw_input]
    else if action == "system.schedule_task" then
      [ { id := "collect_requirements", action := "system.collect_task_requirements",
          description := "Collect timing preferences and resource constraints for the task.",
          parameters := parameters, depends_on := [] },
        { id := "draft_schedule", action := "scheduler.create_task_schedule",
          description := "Draft a schedule or cron entry that satisfies the requirements.",
          parameters := parameters, depends_on := ["collect_requirements"] },
        { id := "publish_guidance", action := "scheduler.publish_user_guidance",
          description := "Share the resulting schedule and any follow-up actions with the user.",
          parameters := parameters, depends_on := ["draft_schedule"] } ]
    else if action == "system.update" then
      [ { id := "refresh_package_index", action := "system.run_command",
          description := "Update the package index to pull the latest metadata.",
          parameters := [("command", PyValue.list [PyValue.str "apt", PyValue.str "update"])],
          depends_on := [] },
        { id := "apply_updates", action := "system.run_command",
          description := "Apply available system updates in non-interactive mode.",
          parameters := [("command", PyValue.list [PyValue.str "apt", PyValue.str "upgrade",
                           PyValue.str "-y"])],
          depends_on := ["refresh_package_index"] } ]
    else if action == "system.execute_low_level" then
      let rawSource := pyOr (pyGet parameters "source") (pyGet parameters "code")
      let lowLevelParameters := prepareLowLevel parameters
      let metadata := pyGet lowLevelParameters "_ainux_low_level"
      let sourceProvided :=
        match rawSource with
        | PyValue.str s => pyStrip s != ""
        | _ => false
      if sourceProvided then
        [ { id := "compile_and_run", action := "system.execute_low_level",
            description := "Compile and execute the provided low-level program snippet.",
            parameters := lowLevelParameters, depends_on := [] } ]
      else
        [ { id := "inspect_command", action := "system.inspect_command",
            description := "Collect details about the requested executable before generating code.",
            parameters := lowLevelInspectParams metadata parameters intent.raw_input,
            depends_on := [] },
          { id := "compile_and_run", action := "system.execute_low_level",
            description := "Compile and execute the provided low-level program snippet.",
            parameters := lowLevelParameters, depends_on := ["inspect_command"] } ]
    else
      if looksLikeApplicationLaunch parameters then
        [buildLaunchStep parameters intent.raw_input]
      else
        [ { id := "analyze",
            action := if action = "" then "analysis.review_request" else action,
            description := "Analyze request and prepare manual runbook.",
            parameters := parameters, depends_on := [] } ]
  { intent := intent, steps := steps, notes := Option.some "Generated by heuristic planner" }

/-! ## Planner theorems: bounded retry (C3), dependency repair (C4),
launch override (C6) -/

theorem heuristicReview_eq_last (plan : ActionPlan) (history : List ExecutionResult)
    (last : ExecutionResult) (hlast : history.getLast? = Option.some last) :
    heuristicReview plan history = heuristicReviewLast plan history last := by
  simp [heuristicReview, hlast]

/-- **C3 (amended).**  For every history whose *last* result has status
`error` or `blocked` and whose step id has failed at least 3 times across
the history, `review_execution` on the heuristic path marks the step
permanently skipped: the review has `complete = true`, the step is
excluded from `next_steps` even if other uncompleted steps remain, and
when the last result carries a truthy `output or error` text the message
is that text annotated with the attempt count. -/
theorem heuristicReview_bounded_retry (plan : ActionPlan) (history : List ExecutionResult)
    (last : ExecutionResult)
    (hlast : history.getLast? = Option.some last)
    (hfail : isFailureStatus last.status = true)
    (hcount : 3 ≤ reviewAttempts history last) :
    (heuristicReview plan history).complete = true ∧
    last.step_id ∉ (heuristicReview plan history).next_steps.map PlanStep.id ∧
    (∀ m, pyOrStr last.output last.error = Option.some m → m ≠ "" →
      (heuristicReview plan history).message =
        Option.some (m ++ " (stopped after " ++ toString (reviewAttempts history last)
          ++ " failures)")) := by
  rw [heuristicReview_eq_last plan history last hlast]
  have hco : reviewCompleteOverride history last = true := by
    simp [reviewCompleteOverride, hfail, hcount]
  refine ⟨?_, ?_, ?_⟩
  · show (reviewCompleteOverride history last || _) = true
    rw [hco, Bool.true_or]
  · intro hmem
    rcases List.mem_map.mp hmem with ⟨step, hstep, hid⟩
    have hcond := List.of_mem_filter hstep
    have h2 : (!(reviewSkipped history last).contains step.id) = true :=
      ((Bool.and_eq_true _ _).mp hcond).2
    rw [reviewSkipped, hco] at h2
    simp [hid] at h2
  · intro m hm hne
    show reviewMessage history last = _
    rw [reviewMessage]
    simp only [hm, hco, if_pos]
    rw [if_pos hne]

/-- Concrete three-step plan used by the C3 counterexample. -/
def retryPlanC3 : ActionPlan :=
  ⟨⟨"r", "demo", [], 0, Option.none, Option.none⟩,
   [⟨"x", "a.one", "d", [], []⟩, ⟨"y", "a.two", "d", [], []⟩, ⟨"z", "a.three", "d", [], []⟩],
   Option.none⟩

/-- History in which step `x` failed three times but the *last* result is
a success of step `y`. -/
def retryHistC3 : List ExecutionResult :=
  [⟨"x", "error", Option.none, Option.some "boom"⟩,
   ⟨"x", "error", Option.none, Option.some "boom"⟩,
   ⟨"x", "error", Option.none, Option.some "boom"⟩,
   ⟨"y", "success", Option.some "ok", Option.none⟩]

/-- **C3 counterexample.**  The claim as stated quantifies over *every*
history in which a step id failed 3 times; here step `x` has failed 3
times, yet (because the last result is a success of another step) the
heuristic review is not complete and `x` is still in `next_steps`. -/
theorem heuristicReview_bounded_retry_counterexample :
    (retryHistC3.filter
        (fun r => isFailureStatus r.status && r.step_id == "x")).length = 3 ∧
    (heuristicReview retryPlanC3 retryHistC3).complete = false ∧
    "x" ∈ (heuristicReview retryPlanC3 retryHistC3).next_steps.map PlanStep.id := by
  refine ⟨rfl, rfl, ?_⟩
  decide

/-- Witness for C3 (amended): step `x` fails three times in a row and the
last result is the third failure. -/
theorem heuristicReview_bounded_retry_witness :
    ([⟨"x", "error", Option.none, Option.some "boom"⟩,
      ⟨"x", "error", Option.none, Option.some "boom"⟩,
      (⟨"x", "error", Option.none, Option.some "boom"⟩ : ExecutionResult)].getLast?
        = Option.some ⟨"x", "error", Option.none, Option.some "boom"⟩) ∧
    (heuristicReview retryPlanC3
      [⟨"x", "error", Option.none, Option.some "boom"⟩,
       ⟨"x", "error", Option.none, Option.some "boom"⟩,
       ⟨"x", "error", Option.none, Option.some "boom"⟩]).complete = true ∧
    "x" ∉ (heuristicReview retryPlanC3
      [⟨"x", "error", Option.none, Option.some "boom"⟩,
       ⟨"x", "error", Option.none, Option.some "boom"⟩,
       ⟨"x", "error", Option.none, Option.some "boom"⟩]).next_steps.map PlanStep.id := by
  have h := heuristicReview_bounded_retry retryPlanC3
    [⟨"x", "error", Option.none, Option.some "boom"⟩,
     ⟨"x", "error", Option.none, Option.some "boom"⟩,
     ⟨"x", "error", Option.none, Option.some "boom"⟩]
    ⟨"x", "error", Option.none, Option.some "boom"⟩ rfl rfl (by decide)
  exact ⟨rfl, h.1, h.2.1⟩

theorem find?_of_split (pre : List PlanStep) (failing : PlanStep) (post : List PlanStep)
    (fid : String) (hfid : failing.id = fid) (hpre : ∀ s ∈ pre, s.id ≠ fid) :
    (pre ++ failing :: post).find? (fun step => step.id == fid) = Option.some failing := by
  induction pre with
  | nil => simp [List.find?, hfid]
  | cons a t ih =>
    have ha : (a.id == fid) = false := by
      simpa using hpre a (List.mem_cons_self a t)
    simp only [List.cons_append, List.find?]
    rw [ha]
    exact ih (fun s hs => hpre s (List.mem_cons_of_mem a hs))

theorem insertBeforeFailing_of_split (ensureStep : PlanStep) (fid : String)
    (pre post : List PlanStep) (failing : PlanStep)
    (hfid : failing.id = fid) (hpre : ∀ s ∈ pre, s.id ≠ fid) :
    insertBeforeFailing ensureStep fid true (pre ++ failing :: post) =
      pre ++ ensureStep ::
        { failing with depends_on := pyDedupFirst (failing.depends_on ++ [ensureStep.id]) }
        :: post := by
  induction pre with
  | nil => simp [insertBeforeFailing, hfid]
  | cons a t ih =>
    have ha : ¬ (a.id = fid) := hpre a (List.mem_cons_self a t)
    simp only [List.cons_append, insertBeforeFailing, if_neg ha]
    exact congrArg (a :: ·) (ih (fun s hs => hpre s (List.mem_cons_of_mem a hs)))

/-- `_inject_dependency_step` on a python-typed dependency with a
non-empty package `P`: when the failing step occurs in the plan (first at
the split position), the ensure-package step is inserted right before it,
the failing step's `depends_on` gains the ensure step's id, and all other
steps are unchanged. -/
theorem injectDependencyStep_python (plan : ActionPlan) (fid : String) (P : String)
    (pre post : List PlanStep) (failing : PlanStep)
    (hP : P ≠ "")
    (hsplit : plan.steps = pre ++ failing :: post)
    (hfid : failing.id = fid)
    (hpre : ∀ s ∈ pre, s.id ≠ fid) :
    injectDependencyStep plan fid
      { type_ := Option.some "python", package := Option.some P,
        module := Option.some P, command := Option.none } =
      { plan with steps :=
          pre ++
            ({ id := "ensure_" ++ pyReplaceChar P '.' '_',
               action := "system.ensure_python_package",
               description :=
                 "Install required Python package '" ++ P ++ "' before retrying the step.",
               parameters := [("package", PyValue.str P), ("module", PyValue.str P),
                 ("original_request", PyValue.str plan.intent.raw_input)],
               depends_on := failing.depends_on } : PlanStep) ::
            { failing with depends_on :=
                pyDedupFirst (failing.depends_on ++ ["ensure_" ++ pyReplaceChar P '.' '_']) }
            :: post } := by
  have hfind : plan.steps.find? (fun step => step.id == fid) = Option.some failing := by
    rw [hsplit]; exact find?_of_split pre failing post fid hfid hpre
  have hany : plan.steps.any (fun s => s.id == fid) = true := by
    rw [hsplit]
    simp [List.any_append, hfid]
  rw [injectDependencyStep]
  simp only [pyOrStr, if_neg hP, optStrTruthy]
  rw [if_neg (by simp [hP])]
  rw [if_neg (by simp)]
  rw [if_neg (by simp [hP])]
  rw [hfind]
  simp only [Option.isSome_some]
  rw [if_pos hany]
  congr 1
  rw [hsplit]
  exact insertBeforeFailing_of_split _ fid pre post failing hfid hpre

/-- **C4.**  For every history whose last result's `error or output` text
matches a missing-module pattern for a package `P` that no existing plan
step already remediates, `review_execution` on the heuristic path returns
a plan with exactly one new ensure-package step referencing `P` inserted
immediately before the failing step, the failing step's `depends_on`
extended to include the new step's id, and all other steps unchanged. -/
theorem heuristicReview_injects_dependency (plan : ActionPlan)
    (history : List ExecutionResult) (last : ExecutionResult)
    (P : String) (pre post : List PlanStep) (failing : PlanStep)
    (hlast : history.getLast? = Option.some last)
    (hdep : extractMissingDependency last =
      Option.some { type_ := Option.some "python", package := Option.some P,
                    module := Option.some P, command := Option.none })
    (hP : P ≠ "")
    (hnot : planContainsDependency plan
      { type_ := Option.some "python", package := Option.some P,
        module := Option.some P, command := Option.none } = false)
    (hsplit : plan.steps = pre ++ failing :: post)
    (hfid : failing.id = last.step_id)
    (hpre : ∀ s ∈ pre, s.id ≠ last.step_id) :
    (heuristicReview plan history).plan.steps =
      pre ++
        ({ id := "ensure_" ++ pyReplaceChar P '.' '_',
           action := "system.ensure_python_package",
           description :=
             "Install required Python package '" ++ P ++ "' before retrying the step.",
           parameters := [("package", PyValue.str P), ("module", PyValue.str P),
             ("original_request", PyValue.str plan.intent.raw_input)],
           depends_on := failing.depends_on } : PlanStep) ::
        { failing with depends_on :=
            pyDedupFirst (failing.depends_on ++ ["ensure_" ++ pyReplaceChar P '.' '_']) }
        :: post := by
  rw [heuristicReview_eq_last plan history last hlast]
  show (reviewUpdatedPlan plan last).steps = _
  rw [reviewUpdatedPlan, hdep]
  simp only [hnot, Bool.not_false, if_pos]
  rw [injectDependencyStep_python plan last.step_id P pre post failing hP hsplit hfid hpre]

/-- Witness for C4: a two-step plan in which step `run_script` fails with
`ModuleNotFoundError: No module named 'numpy'`. -/
theorem heuristicReview_injects_dependency_witness :
    (extractMissingDependency
        ⟨"run_script", "error", Option.none,
          Option.some "ModuleNotFoundError: No module named 'numpy'"⟩ =
      Option.some { type_ := Option.some "python", package := Option.some "numpy",
                    module := Option.some "numpy", command := Option.none }) ∧
    ((heuristicReview
        ⟨⟨"req", "demo", [], 0, Option.none, Option.none⟩,
         [⟨"fetch", "a.b", "d", [], []⟩, ⟨"run_script", "a.c", "d", [], ["fetch"]⟩],
         Option.none⟩
        [⟨"run_script", "error", Option.none,
          Option.some "ModuleNotFoundError: No module named 'numpy'"⟩]).plan.steps =
      [⟨"fetch", "a.b", "d", [], []⟩,
       ⟨"ensure_numpy", "system.ensure_python_package",
        "Install required Python package 'numpy' before retrying the step.",
        [("package", PyValue.str "numpy"), ("module", PyValue.str "numpy"),
         ("original_request", PyValue.str "req")], ["fetch"]⟩,
       ⟨"run_script", "a.c", "d", [], ["fetch", "ensure_numpy"]⟩]) := by
  constructor
  · rfl
  · have h := heuristicReview_injects_dependency
      ⟨⟨"req", "demo", [], 0, Option.none, Option.none⟩,
       [⟨"fetch", "a.b", "d", [], []⟩, ⟨"run_script", "a.c", "d", [], ["fetch"]⟩],
       Option.none⟩
      [⟨"run_script", "error", Option.none,
        Option.some "ModuleNotFoundError: No module named 'numpy'"⟩]
      ⟨"run_script", "error", Option.none,
        Option.some "ModuleNotFoundError: No module named 'numpy'"⟩
      "numpy" [⟨"fetch", "a.b", "d", [], []⟩] [] ⟨"run_script", "a.c", "d", [], ["fetch"]⟩
      rfl rfl (by decide) rfl rfl rfl
      (by intro s hs; simp at hs; subst hs; decide)
    rw [h]
    rfl

/-- **C6 (amended).**  For every intent whose parameters (with
`original_request` defaulted in) look like an application launch, the
heuristic `create_plan` produces a single launch step when the classified
action is `ui.assist_user`, `analysis.review_request`,
`system.launch_application`, or any action without a dedicated template;
the recognized template actions keep their templates instead. -/
theorem heuristicPlan_launch_override (prepareLowLevel : Params → Params)
    (intent : Intent) (context : Params)
    (hlaunch : looksLikeApplicationLaunch
      (pySetDefault intent.parameters "original_request"
        (PyValue.str intent.raw_input)) = true)
    (haction :
      intent.action ∈ ["ui.assist_user", "analysis.review_request",
        "system.launch_application"] ∨
      intent.action ∉ ["ui.assist_user", "analysis.review_request",
        "system.launch_application", "system.optimize_resources", "process.manage",
        "ui.control_pointer", "system.schedule_task", "system.update",
        "system.execute_low_level"]) :
    (heuristicPlan prepareLowLevel intent context).steps =
      [buildLaunchStep
        (pySetDefault intent.parameters "original_request" (PyValue.str intent.raw_input))
        intent.raw_input] := by
  rcases haction with hmem | hnot
  · simp only [List.mem_cons, List.not_mem_nil, or_false] at hmem
    rcases hmem with h | h | h <;> simp [heuristicPlan, h, hlaunch]
  · simp only [List.mem_cons, List.not_mem_nil, or_false, not_or] at hnot
    obtain ⟨h1, h2, h3, h4, h5, h6, h7, h8, h9⟩ := hnot
    simp [heuristicPlan, hlaunch, h1, h2, h3, h4, h5, h6, h7, h8, h9]

/-- **C6 counterexample.**  The claim as stated says the launch override
applies regardless of the classified action; for `process.manage` with
launch-looking parameters the template wins and no launch step exists. -/
theorem heuristicPlan_launch_override_counterexample :
    looksLikeApplicationLaunch
      (pySetDefault [("target", PyValue.str "firefox")] "original_request"
        (PyValue.str "open firefox")) = true ∧
    (heuristicPlan id
      ⟨"open firefox", "process.manage", [("target", PyValue.str "firefox")], 0,
        Option.none, Option.none⟩ []).steps.map PlanStep.id =
      ["list_processes", "evaluate_process_actions", "apply_process_change"] ∧
    ((heuristicPlan id
      ⟨"open firefox", "process.manage", [("target", PyValue.str "firefox")], 0,
        Option.none, Option.none⟩ []).steps.map PlanStep.action).contains
      "system.launch_application" = false := by
  exact ⟨rfl, rfl, rfl⟩

/-- Witness for C6 (amended): a launch-looking `ui.assist_user` intent
collapses to the single launch step. -/
theorem heuristicPlan_launch_override_witness :
    (looksLikeApplicationLaunch
      (pySetDefault [("target", PyValue.str "firefox")] "original_request"
        (PyValue.str "open firefox")) = true) ∧
    (heuristicPlan id
      ⟨"open firefox", "ui.assist_user", [("target", PyValue.str "firefox")], 0,
        Option.none, Option.none⟩ []).steps =
      [buildLaunchStep
        (pySetDefault [("target", PyValue.str "firefox")] "original_request"
          (PyValue.str "open firefox")) "open firefox"] := by
  refine ⟨rfl, ?_⟩
  exact heuristicPlan_launch_override id
    ⟨"open firefox", "ui.assist_user", [("target", PyValue.str "firefox")], 0,
      Option.none, Option.none⟩ [] rfl (Or.inl (by simp))

/-! ## Execution runtime (`orchestration/execution.py`) -/

/-- The `Capability` protocol: a named unit of work whose `execute` may
raise an arbitrary exception (`Except PyExc`). -/
structure Capability where
  name : String
  execute : PlanStep → Params → Except PyExc ExecutionResult

/-- `CapabilityRegistry`: a dict from action name to capability
(insertion-ordered association list with unique keys). -/
structure CapabilityRegistry where
  capabilities : List (String × Capability) := []

/-- `CapabilityRegistry.register`. -/
def CapabilityRegistry.register (registry : CapabilityRegistry)
    (capability : Capability) : CapabilityRegistry :=
  { capabilities :=
      if registry.capabilities.any (fun p => p.1 == capability.name) then
        registry.capabilities.map
          (fun p => if p.1 == capability.name then (capability.name, capability) else p)
      else registry.capabilities ++ [(capability.name, capability)] }

/-- `CapabilityRegistry.get`. -/
def CapabilityRegistry.get (registry : CapabilityRegistry) (action : String) :
    Option Capability :=
  registry.capabilities.lookup action

/-- `CapabilityRegistry.resolve`: raises `KeyError` when no capability is
registered for the action. -/
def CapabilityRegistry.resolve (registry : CapabilityRegistry) (action : String) :
    Except PyExc Capability :=
  match registry.get action with
  | Option.none =>
    Except.error (PyExc.keyError ("No capability registered for action '" ++ action ++ "'"))
  | Option.some capability => Except.ok capability

/-- The per-step body of `ActionExecutor.execute_plan`: resolve the
capability (`KeyError` → `blocked` result), run it (any exception →
`error` result with the exception's message), otherwise return the
capability's result. -/
def executeStep (registry : CapabilityRegistry) (context : Params)
    (step : PlanStep) : ExecutionResult :=
  match registry.resolve step.action with
  | Except.error exc =>
    { step_id := step.id, status := "blocked", error := Option.some exc.message }
  | Except.ok capability =>
    match capability.execute step context with
    | Except.error exc =>
      { step_id := step.id, status := "error", error := Option.some exc.message }
    | Except.ok result => result

/-- `ActionExecutor.execute_plan`: the loop appending one result per
step.  The embedding is a total function — the two `except` clauses of
the source are the two `Except.error` branches of `executeStep` — so
"never raises" is captured by the return type. -/
def executePlan (registry : CapabilityRegistry) (steps : List PlanStep)
    (context : Params) : List ExecutionResult :=
  match steps with
  | [] => []
  | step :: rest => executeStep registry context step :: executePlan registry rest context

/-- **C7.**  For every registry, step list and context, `execute_plan`
returns exactly one `ExecutionResult` per input step, in input order (it
is the elementwise image of the steps), and never raises: a step whose
action has no registered capability yields a `blocked` result carrying the
`KeyError` message, and a capability exception is converted into an
`error` result carrying the exception's message; a normal capability
return is passed through. -/
theorem executePlan_one_result_per_step (registry : CapabilityRegistry)
    (steps : List PlanStep) (context : Params) :
    executePlan registry steps context = steps.map (executeStep registry context) ∧
    (executePlan registry steps context).length = steps.length ∧
    (∀ step, registry.get step.action = Option.none →
      executeStep registry context step =
        { step_id := step.id, status := "blocked",
          error := Option.some
            (PyExc.keyError
              ("No capability registered for action '" ++ step.action ++ "'")).message }) ∧
    (∀ step capability exc, registry.get step.action = Option.some capability →
      capability.execute step context = Except.error exc →
      executeStep registry context step =
        { step_id := step.id, status := "error", error := Option.some exc.message }) ∧
    (∀ step capability result, registry.get step.action = Option.some capability →
      capability.execute step context = Except.ok result →
      executeStep registry context step = result) := by
  refine ⟨?_, ?_, ?_, ?_, ?_⟩
  · induction steps with
    | nil => rfl
    | cons step rest ih => simp [executePlan, ih]
  · induction steps with
    | nil => rfl
    | cons step rest ih => simp [executePlan, ih]
  · intro step hget
    simp [executeStep, CapabilityRegistry.resolve, hget]
  · intro step capability exc hget hexec
    simp [executeStep, CapabilityRegistry.resolve, hget, hexec]
  · intro step capability result hget hexec
    simp [executeStep, CapabilityRegistry.resolve, hget, hexec]

/-- Witness for C7: a registry with one well-behaved and one raising
capability, run over an unknown-action step, a raising step and a normal
step. -/
theorem executePlan_one_result_per_step_witness :
    (executePlan
      ⟨[("ok.action", ⟨"ok.action", fun step _ =>
          Except.ok ⟨step.id, "success", Option.some "done", Option.none⟩⟩),
        ("boom.action", ⟨"boom.action", fun _ _ =>
          Except.error (PyExc.valueError "boom")⟩)]⟩
      [⟨"s1", "missing.action", "d", [], []⟩,
       ⟨"s2", "boom.action", "d", [], []⟩,
       ⟨"s3", "ok.action", "d", [], []⟩] []).length = 3 ∧
    executeStep
      ⟨[("ok.action", ⟨"ok.action", fun step _ =>
          Except.ok ⟨step.id, "success", Option.some "done", Option.none⟩⟩),
        ("boom.action", ⟨"boom.action", fun _ _ =>
          Except.error (PyExc.valueError "boom")⟩)]⟩
      [] ⟨"s1", "missing.action", "d", [], []⟩ =
      { step_id := "s1", status := "blocked",
        error := Option.some "'No capability registered for action 'missing.action''" } := by
  constructor
  · have h := (executePlan_one_result_per_step
      ⟨[("ok.action", ⟨"ok.action", fun step _ =>
          Except.ok ⟨step.id, "success", Option.some "done", Option.none⟩⟩),
        ("boom.action", ⟨"boom.action", fun _ _ =>
          Except.error (PyExc.valueError "boom")⟩)]⟩
      [⟨"s1", "missing.action", "d", [], []⟩,
       ⟨"s2", "boom.action", "d", [], []⟩,
       ⟨"s3", "ok.action", "d", [], []⟩] []).2.1
    simpa using h
  · exact (executePlan_one_result_per_step
      ⟨[("ok.action", ⟨"ok.action", fun step _ =>
          Except.ok ⟨step.id, "success", Option.some "done", Option.none⟩⟩),
        ("boom.action", ⟨"boom.action", fun _ _ =>
          Except.error (PyExc.valueError "boom")⟩)]⟩
      [] []).2.2.1 ⟨"s1", "missing.action", "d", [], []⟩ rfl

/-- The observable outcome of `subprocess.run(command_list, ...)` in
`ShellCommandCapability.execute`: either the interpreter raises
`FileNotFoundError` (the only exception the source catches there), or the
process completes with a return code, stdout and stderr. -/
inductive SubprocessOutcome where
  | fileNotFound
  | completed (returncode : Int) (stdout : String) (stderr : String)

/-- `str.startswith`, written structurally so concrete instances
evaluate. -/
def pyStartsWith (s head : String) : Bool :=
  head.data.isPrefixOf s.data

/-- `ShellCommandCapability` (dataclass defaults: name
`system.run_command`; the allow-list dict `{"apt": "apt", "systemctl":
"systemctl"}` is only ever read through `.values()`, embedded here as that
value list in insertion order). -/
structure ShellCommandCapability where
  name : String := "system.run_command"
  allowed_values : List String := ["apt", "systemctl"]

/-- Extract an all-string Python list (the only command lists that reach
`subprocess.run` without raising). -/
def allStrings : List PyValue → Option (List String)
  | [] => Option.some []
  | PyValue.str s :: rest => (allStrings rest).map (fun t => s :: t)
  | _ :: _ => Option.none

/-- The tail of `ShellCommandCapability.execute` once the command has
been normalized to a token list: the allow-list check
(`executable.startswith(prefix)` over the allow-list values), then the
subprocess call. -/
def shellExecuteTokens (cap : ShellCommandCapability)
    (run : List String → SubprocessOutcome) (step : PlanStep)
    (commandList : List String) : ExecutionResult :=
  match commandList with
  | [] => { step_id := step.id, status := "error", error := Option.some "Command is empty" }
  | executable :: rest =>
    if !(cap.allowed_values.any (fun value => pyStartsWith executable value)) then
      { step_id := step.id, status := "blocked",
        error := Option.some ("Executable '" ++ executable ++ "' not in allow list") }
    else
      match run (executable :: rest) with
      | SubprocessOutcome.fileNotFound =>
        { step_id := step.id, status := "error",
          error := Option.some ("Command '" ++ executable ++ "' not found") }
      | SubprocessOutcome.completed returncode stdout stderr =>
        { step_id := step.id
          status := if returncode = 0 then "success" else "error"
          output := pyOrStr (Option.some (pyStrip stdout)) Option.none
          error := pyOrStr (Option.some (pyStrip stderr)) Option.none }

/-- `ShellCommandCapability.execute`, with the subprocess call abstracted
by `run`.  A command list containing a non-string member makes the
capability raise (`startswith`/`subprocess.run` type errors, uncaught in
the capability and converted to an `error` result at the executor
boundary); all other paths return a result. -/
def shellExecute (cap : ShellCommandCapability)
    (run : List String → SubprocessOutcome) (step : PlanStep) :
    Except PyExc ExecutionResult :=
  let command := pyGet step.parameters "command"
  if !pyTruthy command then
    Except.ok { step_id := step.id, status := "error", error := Option.some "Missing command" }
  else
    match command with
    | PyValue.list xs =>
      match allStrings xs with
      | Option.some tokens => Except.ok (shellExecuteTokens cap run step tokens)
      | Option.none =>
        Except.error (PyExc.typeError "expected str, bytes or os.PathLike object")
    | PyValue.str s => Except.ok (shellExecuteTokens cap run step (pySplitWs s))
    | _ =>
      Except.ok { step_id := step.id, status := "error",
                  error := Option.some "Command must be string or list" }

/-- **C9.**  For every step whose `command` parameter parses to a
non-empty token list (a string that whitespace-splits to tokens, or a
list of strings), the default `ShellCommandCapability.execute` returns a
result, and that result has status `blocked` if and only if the first
token does not start with the string `apt` or `systemctl`.  The check is
a string-prefix match, not an exact-name match, so any executable whose
name merely begins with one of those strings passes the allow-list. -/
theorem shellExecute_allow_list (run : List String → SubprocessOutcome)
    (step : PlanStep) (executable : String) (rest : List String)
    (hcmd :
      (∃ s, pyGet step.parameters "command" = PyValue.str s ∧
        pySplitWs s = executable :: rest) ∨
      (∃ xs, pyGet step.parameters "command" = PyValue.list xs ∧
        allStrings xs = Option.some (executable :: rest))) :
    shellExecute {} run step =
      Except.ok (shellExecuteTokens {} run step (executable :: rest)) ∧
    ((shellExecuteTokens {} run step (executable :: rest)).status = "blocked" ↔
      ¬(pyStartsWith executable "apt" = true ∨
        pyStartsWith executable "systemctl" = true)) ∧
    ((shellExecuteTokens {} run step (executable :: rest)).status = "blocked" →
      (shellExecuteTokens {} run step (executable :: rest)).error =
        Option.some ("Executable '" ++ executable ++ "' not in allow list")) := by
  have hanyv : (({} : ShellCommandCapability).allowed_values.any
      (fun value => pyStartsWith executable value)) =
      (pyStartsWith executable "apt" || pyStartsWith executable "systemctl") := by
    show (["apt", "systemctl"].any (fun value => pyStartsWith executable value)) = _
    simp [List.any]
  have htoken : shellExecute {} run step =
      Except.ok (shellExecuteTokens {} run step (executable :: rest)) := by
    rcases hcmd with ⟨s, hget, hsplit⟩ | ⟨xs, hget, hall⟩
    · have hs : s ≠ "" := by
        intro he
        rw [he] at hsplit
        simp [pySplitWs, splitWsAux] at hsplit
      rw [shellExecute, hget]
      simp only [pyTruthy]
      rw [if_neg (by simp [hs]), hsplit]
    · have hxs : xs ≠ [] := by
        intro he
        rw [he] at hall
        simp [allStrings] at hall
      rw [shellExecute, hget]
      simp only [pyTruthy]
      rw [if_neg (by simp [hxs]), hall]
  have hiff : ((shellExecuteTokens {} run step (executable :: rest)).status = "blocked" ↔
      ¬(pyStartsWith executable "apt" = true ∨
        pyStartsWith executable "systemctl" = true)) := by
    by_cases hcond : (pyStartsWith executable "apt" = true ∨
        pyStartsWith executable "systemctl" = true)
    · have hb : (pyStartsWith executable "apt" || pyStartsWith executable "systemctl") = true := by
        rcases hcond with h | h <;> simp [h]
      simp only [shellExecuteTokens, hanyv, hb, Bool.not_true, Bool.false_eq_true,
        if_false]
      cases run (executable :: rest) with
      | fileNotFound => simp [hcond]
      | completed returncode stdout stderr =>
        by_cases hrc : returncode = 0 <;> simp [hrc, hcond]
    · have hnapt : pyStartsWith executable "apt" = false := by
        rcases Bool.eq_false_or_eq_true (pyStartsWith executable "apt") with h | h
        · exact absurd (Or.inl h) hcond
        · exact h
      have hnsys : pyStartsWith executable "systemctl" = false := by
        rcases Bool.eq_false_or_eq_true (pyStartsWith executable "systemctl") with h | h
        · exact absurd (Or.inr h) hcond
        · exact h
      simp only [shellExecuteTokens, hanyv, hnapt, hnsys, Bool.or_self,
        Bool.not_false, if_true]
      simp [hcond]
  refine ⟨htoken, hiff, ?_⟩
  intro hblocked
  have hcond := hiff.mp hblocked
  have hnapt : pyStartsWith executable "apt" = false := by
    rcases Bool.eq_false_or_eq_true (pyStartsWith executable "apt") with h | h
    · exact absurd (Or.inl h) hcond
    · exact h
  have hnsys : pyStartsWith executable "systemctl" = false := by
    rcases Bool.eq_false_or_eq_true (pyStartsWith executable "systemctl") with h | h
    · exact absurd (Or.inr h) hcond
    · exact h
  simp only [shellExecuteTokens, hanyv, hnapt, hnsys, Bool.or_self,
    Bool.not_false, if_true]

/-- Witness for C9: `aptitude full-upgrade` — not `apt` — passes the
string-prefix allow-list and is not blocked. -/
theorem shellExecute_allow_list_witness :
    (∃ xs, pyGet [("command", PyValue.list [PyValue.str "aptitude", PyValue.str "full-upgrade"])]
        "command" = PyValue.list xs ∧
      allStrings xs = Option.some ["aptitude", "full-upgrade"]) ∧
    ¬((shellExecuteTokens {} (fun _ => SubprocessOutcome.completed 0 "ok" "")
        ⟨"s", "system.run_command", "d",
          [("command", PyValue.list [PyValue.str "aptitude", PyValue.str "full-upgrade"])], []⟩
        ["aptitude", "full-upgrade"]).status = "blocked") := by
  constructor
  · exact ⟨[PyValue.str "aptitude", PyValue.str "full-upgrade"], rfl, rfl⟩
  · have h := (shellExecute_allow_list (fun _ => SubprocessOutcome.completed 0 "ok" "")
      ⟨"s", "system.run_command", "d",
        [("command", PyValue.list [PyValue.str "aptitude", PyValue.str "full-upgrade"])], []⟩
      "aptitude" ["full-upgrade"]
      (Or.inr ⟨[PyValue.str "aptitude", PyValue.str "full-upgrade"], rfl, rfl⟩)).2.1
    intro hb
    exact absurd (h.mp hb) (by simp [pyStartsWith])

/-! ## Intent parser (`orchestration/intent.py`) -/

/-- Substring containment over character lists (`needle in haystack`). -/
def listContainsSub (needle : List Char) : List Char → Bool
  | [] => needle.isEmpty
  | c :: cs => needle.isPrefixOf (c :: cs) || listContainsSub needle cs

/-- Python `needle in haystack` on strings. -/
def strContains (haystack needle : String) : Bool :=
  listContainsSub needle.data haystack.data

/-- Decimal digits of a numeral (match group of `\d+` / `\d{1,2}`). -/
def digitsToNat (cs : List Char) : Nat :=
  cs.foldl (fun acc c => acc * 10 + (c.toNat - '0'.toNat)) 0

/-- The optional `(?:시|:)(\d{2})?` tail of the time regex: a separator
followed by an optional two-digit minute group. -/
def timeSepMinutes : List Char → Option (Option String)
  | [] => Option.none
  | c :: rest =>
    if c = '시' ∨ c = ':' then
      Option.some
        (match rest with
         | a :: b :: _ => if a.isDigit && b.isDigit then Option.some (String.mk [a, b])
                          else Option.none
         | [a] => if a.isDigit then Option.none else Option.none
         | [] => Option.none)
    else Option.none

/-- Match `(\d{1,2})(?:시|:)(\d{2})?` at the head of the character list:
greedy two digits first, backtracking to one, as `re` does. -/
def timeMatchAt : List Char → Option (String × Option String)
  | [] => Option.none
  | [d1] =>
    if d1.isDigit then
      match timeSepMinutes [] with
      | Option.some m => Option.some (String.mk [d1], m)
      | Option.none => Option.none
    else Option.none
  | d1 :: d2 :: rest =>
    if d1.isDigit then
      if d2.isDigit then
        match timeSepMinutes rest with
        | Option.some m => Option.some (String.mk [d1, d2], m)
        | Option.none =>
          match timeSepMinutes (d2 :: rest) with
          | Option.some m => Option.some (String.mk [d1], m)
          | Option.none => Option.none
      else
        match timeSepMinutes (d2 :: rest) with
        | Option.some m => Option.some (String.mk [d1], m)
        | Option.none => Option.none
    else Option.none

/-- `re.search` of the time-of-day pattern
`(\d{1,2})(?:시|:)(\d{2})?` (ASCII digits; the source's `\d` also accepts
exotic unicode digits, which no claim exercises). -/
def searchTime : List Char → Option (String × Option String)
  | [] => Option.none
  | c :: cs =>
    match timeMatchAt (c :: cs) with
    | Option.some r => Option.some r
    | Option.none => searchTime cs

/-- Match `(월|화|수|목|금|토|일)요일` at the head, returning the whole
match (`group(0)`). -/
def dayMatchAt : List Char → Option String
  | d :: y1 :: y2 :: _ =>
    if ['월', '화', '수', '목', '금', '토', '일'].contains d ∧ y1 = '요' ∧ y2 = '일' then
      Option.some (String.mk [d, '요', '일'])
    else Option.none
  | _ => Option.none

/-- `re.search` of the weekday pattern. -/
def searchDay : List Char → Option String
  | [] => Option.none
  | c :: cs =>
    match dayMatchAt (c :: cs) with
    | Option.some r => Option.some r
    | Option.none => searchDay cs

/-- `re.search(r"(\d+)\s*(?:px|픽셀|pixel)?", lowered)`'s first capture
group: the leftmost maximal digit run (the optional unit suffix never
constrains the match). -/
def searchNumber : List Char → Option (List Char)
  | [] => Option.none
  | c :: cs =>
    if c.isDigit then Option.some (c :: cs.takeWhile Char.isDigit)
    else searchNumber cs

/-- `IntentParser._infer_pointer_parameters`. -/
def inferPointerParameters (request : String) (lowered : String) : Params :=
  let operation :=
    if strContains lowered "클릭" || strContains lowered "click" then "click" else "move"
  let parameters : Params := [("operation", PyValue.str operation)]
  if operation = "click" then
    let button :=
      if ["오른쪽", "right"].any (fun k => strContains lowered k) then "right"
      else if ["가운데", "middle"].any (fun k => strContains lowered k) then "middle"
      else "left"
    let parameters := parameters ++ [("button", PyValue.str button)]
    let parameters :=
      if strContains lowered "더블" || strContains lowered "double" then
        parameters ++ [("clicks", PyValue.num 2)]
      else parameters
    let parameters :=
      if strContains lowered "길게" || strContains lowered "hold" then
        parameters ++ [("interval", PyValue.num 0.4)]
      else parameters
    parameters
  else
    let amount : Nat :=
      if ["조금", "살짝", "약간"].any (fun t => strContains lowered t) then 40
      else if ["많이", "크게", "멀리"].any (fun t => strContains lowered t) then 140
      else 80
    let amount : Nat :=
      match searchNumber lowered.data with
      | Option.some digits => max (digitsToNat digits) 1
      | Option.none => amount
    let directionMap : List (String × Int × Int) :=
      [("오른쪽", 1, 0), ("right", 1, 0), ("왼쪽", -1, 0), ("left", -1, 0),
       ("위", 0, -1), ("위쪽", 0, -1), ("up", 0, -1),
       ("아래", 0, 1), ("아랫", 0, 1), ("down", 0, 1)]
    let dxdy : Int × Int := directionMap.foldl
      (fun acc entry =>
        if strContains lowered entry.1 then (acc.1 + entry.2.1, acc.2 + entry.2.2) else acc)
      (0, 0)
    let dxdy := if dxdy.1 = 0 ∧ dxdy.2 = 0 then ((1 : Int), dxdy.2) else dxdy
    let parameters := parameters ++
      [("dx", PyValue.num (dxdy.1 * (amount : Int) : Int)),
       ("dy", PyValue.num (dxdy.2 * (amount : Int) : Int))]
    if ["천천히", "slow"].any (fun t => strContains lowered t) then
      parameters ++ [("duration", PyValue.num 0.4)]
    else if ["빠르게", "빨리", "fast"].any (fun t => strContains lowered t) then
      parameters ++ [("duration", PyValue.num 0)]
    else parameters

/-- `IntentParser._heuristic_parse`. -/
def heuristicParse (request : String) (context : Params) : Intent :=
  let lowered := pyLower request
  let pointerKeywords := ["마우스", "mouse", "커서", "포인터"]
  let terminalKeywords :=
    ["terminal", "터미널", "콘솔", "console", "shell", "쉘", "bash", "zsh"]
  let resourceKeywords :=
    ["cpu", "메모리", "memory", "ram", "자원", "resource", "load", "부하"]
  let processKeywords := ["프로세스", "process", "작업", "kill", "종료", "pid", "백그라운드"]
  let uiKeywords := ["도와", "ui", "interface", "창", "앱", "app", "실행", "어떻게", "사용법"]
  let scheduleKeywords := ["스케줄", "예약", "schedule", "maint", "cron", "시간", "알람"]
  let hit := fun (keywords : List String) => keywords.any (fun k => strContains lowered k)
  let (action, parameters, confidence) : String × Params × Rat :=
    if hit pointerKeywords then
      ("ui.control_pointer", inferPointerParameters request lowered, 0.8)
    else if hit terminalKeywords then
      ("system.launch_application",
        [("target", PyValue.str "terminal"), ("original_request", PyValue.str request)], 0.75)
    else if hit resourceKeywords then ("system.optimize_resources", [], 0.7)
    else if hit processKeywords then ("process.manage", [], 0.7)
    else if hit uiKeywords then ("ui.assist_user", [], 0.65)
    else if hit scheduleKeywords then ("system.schedule_task", [], 0.6)
    else if hit ["업데이트", "update", "upgrade"] then ("system.update", [], 0.5)
    else if strContains lowered "network" || strContains lowered "방화벽" ||
        strContains lowered "네트워크" then
      ("system.schedule_task", [], 0.4)
    else ("analysis.review_request", [], 0.4)
  let parameters :=
    match searchTime request.data with
    | Option.some (hour, minuteOpt) =>
      pySet parameters "requested_time" (PyValue.str (hour ++ ":" ++ minuteOpt.getD "00"))
    | Option.none => parameters
  let parameters :=
    match searchDay request.data with
    | Option.some day => pySet parameters "requested_day" (PyValue.str day)
    | Option.none => parameters
  { raw_input := request, action := action, parameters := parameters,
    confidence := confidence, reasoning := Option.some "Heuristic parser",
    context_snapshot := Option.some context }

/-- The observable outcome of the model path of `IntentParser.parse`: no
client configured, a transport failure (`ChatClientError`), completion
content that `json.loads` rejects (`JSONDecodeError`), or the parsed JSON
content as a Python value. -/
inductive ClientOutcome where
  | noClient
  | transportError (msg : String)
  | invalidJson (msg : String)
  | json (payload : PyValue)

/-- The Python type name, for exception messages. -/
def pyTypeName : PyValue → String
  | PyValue.none => "NoneType"
  | PyValue.bool _ => "bool"
  | PyValue.num _ => "float"
  | PyValue.str _ => "str"
  | PyValue.list _ => "list"
  | PyValue.dict _ => "dict"

/-- A decimal-literal parser approximating Python `float()` on strings:
optional surrounding whitespace, optional sign, digits with an optional
fractional part.  Exotic accepted spellings (exponents, `inf`, `nan`,
underscores) are not modelled; a parsed value and a `ValueError` are
caught identically by `parse`, so no claim depends on the exact accepted
set. -/
def parseDecimal (s : String) : Option Rat :=
  let cs := (pyStrip s).data
  let signAndRest : Rat × List Char :=
    match cs with
    | '-' :: rest => (-1, rest)
    | '+' :: rest => (1, rest)
    | _ => (1, cs)
  let sign := signAndRest.1
  let cs := signAndRest.2
  let intPart := cs.takeWhile Char.isDigit
  let rest := cs.dropWhile Char.isDigit
  match rest with
  | [] =>
    if intPart.isEmpty then Option.none
    else Option.some (sign * (digitsToNat intPart : Rat))
  | '.' :: frac =>
    let fracDigits := frac.takeWhile Char.isDigit
    let rest2 := frac.dropWhile Char.isDigit
    if rest2.isEmpty ∧ ¬(intPart.isEmpty ∧ fracDigits.isEmpty) then
      Option.some (sign * ((digitsToNat intPart : Rat) +
        (digitsToNat fracDigits : Rat) / ((10 : Rat) ^ fracDigits.length)))
    else Option.none
  | _ => Option.none

/-- Python `float(v)` on the values that can reach it in
`_parse_with_model`: numbers and booleans convert, strings parse as
decimal literals or raise `ValueError`, `None` and containers raise
`TypeError`. -/
def pyFloat : PyValue → Except PyExc Rat
  | PyValue.num n => Except.ok n
  | PyValue.bool b => Except.ok (if b then 1 else 0)
  | PyValue.str s =>
    match parseDecimal s with
    | Option.some q => Except.ok q
    | Option.none =>
      Except.error (PyExc.valueError ("could not convert string to float: '" ++ s ++ "'"))
  | v => Except.error (PyExc.typeError
      ("float() argument must be a string or a real number, not '" ++ pyTypeName v ++ "'"))

/-- The tail of `IntentParser._parse_with_model` after a successful
completion and `json.loads`.  A non-dict payload makes `payload.get`
raise `AttributeError`; a truthy container-valued `confidence` makes
`float()` raise `TypeError`; neither is among the exception classes
`parse` catches. -/
def parseWithModelPayload (request : String) (context : Params) (payload : PyValue) :
    Except PyExc Intent :=
  match payload with
  | PyValue.dict fields =>
    let action := pyStr (pyOr (pyGet fields "action") (PyValue.str "analysis.review_request"))
    match pyFloat (pyOr (pyGet fields "confidence") (PyValue.num 0)) with
    | Except.error e => Except.error e
    | Except.ok confidence =>
      let reasoning := pyGet fields "reasoning"
      let parameters : Params :=
        match pyOr (pyGet fields "parameters") (PyValue.dict []) with
        | PyValue.dict d => d
        | other => [("value", other)]
      Except.ok
        { raw_input := request, action := action, parameters := parameters,
          confidence := confidence
          reasoning :=
            match reasoning with
            | PyValue.none => Option.none
            | v => Option.some (pyStr v)
          context_snapshot := Option.some context }
  | _ =>
    Except.error (PyExc.attributeError
      ("'" ++ pyTypeName payload ++ "' object has no attribute 'get'"))

/-- The exception classes caught by `IntentParser.parse` around the model
path: `ChatClientError`, `ValueError`, `json.JSONDecodeError`. -/
def parseCaught : PyExc → Bool
  | PyExc.chatClientError _ => true
  | PyExc.valueError _ => true
  | PyExc.jsonDecodeError _ => true
  | _ => false

/-- `IntentParser.parse`: strip the request, raise `ValueError` when it is
empty, then try the model path when a client is configured, falling back
to the heuristic parse on a caught error, and use the heuristic parse
directly with no client. -/
def intentParse (request : String) (context : Params) (outcome : ClientOutcome) :
    Except PyExc Intent :=
  let request := pyStrip request
  if request = "" then
    Except.error (PyExc.valueError "Request must not be empty")
  else
    match outcome with
    | ClientOutcome.noClient => Except.ok (heuristicParse request context)
    | ClientOutcome.transportError _ => Except.ok (heuristicParse request context)
    | ClientOutcome.invalidJson _ => Except.ok (heuristicParse request context)
    | ClientOutcome.json payload =>
      match parseWithModelPayload request context payload with
      | Except.ok intent => Except.ok intent
      | Except.error e =>
        if parseCaught e then Except.ok (heuristicParse request context)
        else Except.error e

/-- **C10.**  For every request that strips to the empty string,
`IntentParser.parse` raises `ValueError` before attempting either the
model path or the heuristic path (the result is the error, identically
for every model-client outcome), so an empty request never produces an
Intent. -/
theorem intentParse_empty_raises (request : String) (context : Params)
    (outcome other : ClientOutcome)
    (h : pyStrip request = "") :
    intentParse request context outcome =
      Except.error (PyExc.valueError "Request must not be empty") ∧
    intentParse request context outcome = intentParse request context other := by
  constructor
  · simp [intentParse, h]
  · simp [intentParse, h]

/-- Witness for C10: a whitespace-only request raises, regardless of the
client outcome. -/
theorem intentParse_empty_raises_witness :
    pyStrip "   " = "" ∧
    intentParse "   " [] ClientOutcome.noClient =
      Except.error (PyExc.valueError "Request must not be empty") := by
  refine ⟨rfl, ?_⟩
  exact (intentParse_empty_raises "   " [] ClientOutcome.noClient
    (ClientOutcome.json (PyValue.dict [])) rfl).1

/-- Is the value a container (list or dict)?  `float()` raises an
uncaught `TypeError` exactly on truthy containers. -/
def isContainer : PyValue → Bool
  | PyValue.list _ => true
  | PyValue.dict _ => true
  | _ => false

/-- **C8 (amended).**  For every non-empty (after stripping) request,
`IntentParser.parse` returns an Intent whenever the model path raises one
of the caught classes — no client, transport error (`ChatClientError`),
undecodable content (`JSONDecodeError`), or a `ValueError` from the
payload fields — with the heuristic fallback returned in the error cases;
but a model response whose content decodes to a non-dict JSON value, or
to a dict whose truthy `confidence` is a container, raises an uncaught
`AttributeError`/`TypeError` that propagates to the caller. -/
theorem intentParse_model_fallback (request : String) (context : Params)
    (hreq : pyStrip request ≠ "") :
    (intentParse request context ClientOutcome.noClient =
      Except.ok (heuristicParse (pyStrip request) context)) ∧
    (∀ msg, intentParse request context (ClientOutcome.transportError msg) =
      Except.ok (heuristicParse (pyStrip request) context)) ∧
    (∀ msg, intentParse request context (ClientOutcome.invalidJson msg) =
      Except.ok (heuristicParse (pyStrip request) context)) ∧
    (∀ fields,
      isContainer (pyOr (pyGet fields "confidence") (PyValue.num 0)) = false →
      ∃ intent, intentParse request context
          (ClientOutcome.json (PyValue.dict fields)) = Except.ok intent) ∧
    (∀ payload, (∀ fields, payload ≠ PyValue.dict fields) →
      intentParse request context (ClientOutcome.json payload) =
        Except.error (PyExc.attributeError
          ("'" ++ pyTypeName payload ++ "' object has no attribute 'get'"))) := by
  refine ⟨?_, ?_, ?_, ?_, ?_⟩
  · simp [intentParse, hreq]
  · intro msg; simp [intentParse, hreq]
  · intro msg; simp [intentParse, hreq]
  · intro fields hconf
    simp only [intentParse, if_neg hreq]
    have hfl : (∃ q, pyFloat (pyOr (pyGet fields "confidence") (PyValue.num 0)) = Except.ok q) ∨
        (∃ m, pyFloat (pyOr (pyGet fields "confidence") (PyValue.num 0)) =
          Except.error (PyExc.valueError m)) := by
      cases hv : pyOr (pyGet fields "confidence") (PyValue.num 0) with
      | none =>
        exfalso
        rw [pyOr] at hv
        by_cases ht : pyTruthy (pyGet fields "confidence") = true
        · rw [if_pos ht] at hv
          rw [hv] at ht
          exact absurd ht (by decide)
        · rw [if_neg ht] at hv
          exact PyValue.noConfusion hv
      | bool b => exact Or.inl ⟨_, rfl⟩
      | num n => exact Or.inl ⟨_, rfl⟩
      | str s =>
        cases hd : parseDecimal s with
        | some q => exact Or.inl ⟨q, by simp [pyFloat, hd]⟩
        | none =>
          exact Or.inr ⟨"could not convert string to float: '" ++ s ++ "'",
            by simp [pyFloat, hd]⟩
      | list xs => rw [hv] at hconf; simp [isContainer] at hconf
      | dict d => rw [hv] at hconf; simp [isContainer] at hconf
    cases hres : parseWithModelPayload (pyStrip request) context (PyValue.dict fields) with
    | ok intent => exact ⟨intent, rfl⟩
    | error e =>
      refine ⟨heuristicParse (pyStrip request) context, ?_⟩
      have hcaught : parseCaught e = true := by
        rcases hfl with ⟨q, hq⟩ | ⟨m, hm⟩
        · exact absurd hres (by simp [parseWithModelPayload, hq])
        · have h2 : parseWithModelPayload (pyStrip request) context (PyValue.dict fields) =
              Except.error (PyExc.valueError m) := by
            simp [parseWithModelPayload, hm]
          rw [hres] at h2
          cases h2
          rfl
      simp [hcaught]
  · intro payload hnd
    simp only [intentParse, if_neg hreq]
    cases payload with
    | dict fields => exact absurd rfl (hnd fields)
    | none => rfl
    | bool b => rfl
    | num n => rfl
    | str s => rfl
    | list xs => rfl

/-- **C8 counterexample.**  A model response whose content is the valid
JSON array `[1]` makes `parse` raise `AttributeError` (from
`payload.get` on a list), which is not among the caught classes, so the
error propagates to the caller instead of the heuristic fallback. -/
theorem intentParse_model_fallback_counterexample :
    intentParse "do it" [] (ClientOutcome.json (PyValue.list [PyValue.num 1])) =
      Except.error (PyExc.attributeError "'list' object has no attribute 'get'") := rfl

/-- Witness for C8 (amended): a transport failure falls back to the
heuristic parse. -/
theorem intentParse_model_fallback_witness :
    pyStrip "help me" ≠ "" ∧
    intentParse "help me" [] (ClientOutcome.transportError "connection refused") =
      Except.ok (heuristicParse "help me" []) := by
  refine ⟨by decide, ?_⟩
  exact (intentParse_model_fallback "help me" [] (by decide)).2.1 "connection refused"

/-! ## Orchestrator (`orchestration/orchestrator.py`) -/

/-- `OrchestrationError`, carrying its message. -/
inductive OrchError where
  | allBlocked (message : String)
deriving DecidableEq

/-- The pluggable components `orchestrate` drives, as pure functions of
their visible inputs.  Each is closed over the merged call context
(computed once per call) and, where applicable, over the model-client
outcome for that call; the knowledge fabric and the observer only add
context and emit notifications and never alter the control flow embedded
here.  `parseIntent` abstracts a non-raising `IntentParser.parse` run
(its raising behavior is settled by C8/C10); `execStep` abstracts
`executor.execute_plan([step], context)`, which returns exactly one
result per step (C7).  `reviewExec` returns the review together with the
source's `review.plan is not plan` object-identity test, which a pure
embedding cannot observe otherwise: the Boolean is `true` exactly when
the planner produced a new plan object. -/
structure Components where
  parseIntent : String → Intent
  createPlan : Intent → ActionPlan
  reviewSafety : ActionPlan → SafetyReport
  execStep : PlanStep → ExecutionResult
  reviewExec : Intent → ActionPlan → List ExecutionResult → PlanReview × Bool

/-- The state a completed orchestration loop hands back. -/
structure LoopDone where
  plan : ActionPlan
  safety : SafetyReport
  executed : List ExecutionResult
  reviews : List PlanReview

/-- The execution loop of `AinuxOrchestrator.orchestrate` (the
`while pending_steps:` loop), with an explicit fuel bound on the number of
iterations: `.ok none` means the fuel ran out (the source loop would keep
iterating), `.error` is the `OrchestrationError` raised when a replan
leaves zero approved steps on a non-empty plan. -/
def orchLoop (C : Components) (intent : Intent) :
    Nat → ActionPlan → SafetyReport → List String → List ExecutionResult →
    List PlanReview → List PlanStep → Except OrchError (Option LoopDone)
  | 0, _, _, _, _, _, _ => Except.ok Option.none
  | _ + 1, plan, safety, _, executed, reviews, [] =>
    Except.ok (Option.some ⟨plan, safety, executed, reviews⟩)
  | fuel + 1, plan, safety, completed, executed, reviews, step :: restPending =>
    if completed.contains step.id then
      orchLoop C intent fuel plan safety completed executed reviews restPending
    else
      let result := C.execStep step
      let executed2 := executed ++ [result]
      let completed2 :=
        if !(result.status == "blocked" || result.status == "error") then
          if completed.contains result.step_id then completed
          else completed ++ [result.step_id]
        else completed
      let rv := C.reviewExec intent plan executed2
      let reviews2 := reviews ++ [rv.1]
      if rv.2 then
        let plan2 := rv.1.plan
        let safety2 := C.reviewSafety plan2
        if safety2.approved_steps.isEmpty && !plan2.steps.isEmpty then
          Except.error (OrchError.allBlocked "All plan steps were blocked after planner review")
        else if rv.1.complete then
          Except.ok (Option.some ⟨plan2, safety2, executed2, reviews2⟩)
        else
          orchLoop C intent fuel plan2 safety2 completed2 executed2 reviews2
            (plan2.steps.filter (fun s =>
              !completed2.contains s.id &&
              (safety2.approved_steps.map PlanStep.id).contains s.id))
      else if rv.1.complete then
        Except.ok (Option.some ⟨plan, safety, executed2, reviews2⟩)
      else
        orchLoop C intent fuel plan safety completed2 executed2 reviews2
          (plan.steps.filter (fun s =>
            !completed2.contains s.id &&
            (safety.approved_steps.map PlanStep.id).contains s.id))

/-- Mirror of `orchLoop` recording only whether the loop raises: `true`
exactly when, within the fuel bound, some replan leaves zero approved
steps on a non-empty plan. -/
def orchLoopBad (C : Components) (intent : Intent) :
    Nat → ActionPlan → SafetyReport → List String → List ExecutionResult →
    List PlanStep → Bool
  | 0, _, _, _, _, _ => false
  | _ + 1, _, _, _, _, [] => false
  | fuel + 1, plan, safety, completed, executed, step :: restPending =>
    if completed.contains step.id then
      orchLoopBad C intent fuel plan safety completed executed restPending
    else
      let result := C.execStep step
      let executed2 := executed ++ [result]
      let completed2 :=
        if !(result.status == "blocked" || result.status == "error") then
          if completed.contains result.step_id then completed
          else completed ++ [result.step_id]
        else completed
      let rv := C.reviewExec intent plan executed2
      if rv.2 then
        let plan2 := rv.1.plan
        let safety2 := C.reviewSafety plan2
        if safety2.approved_steps.isEmpty && !plan2.steps.isEmpty then true
        else if rv.1.complete then false
        else
          orchLoopBad C intent fuel plan2 safety2 completed2 executed2
            (plan2.steps.filter (fun s =>
              !completed2.contains s.id &&
              (safety2.approved_steps.map PlanStep.id).contains s.id))
      else if rv.1.complete then false
      else
        orchLoopBad C intent fuel plan safety completed2 executed2
          (plan.steps.filter (fun s =>
            !completed2.contains s.id &&
            (safety.approved_steps.map PlanStep.id).contains s.id))

/-- `AinuxOrchestrator.orchestrate`, from the parsed intent to the
returned result.  Fabric reads/writes and observer notifications do not
affect control flow and are omitted. -/
def orchestrate (C : Components) (request : String) (execute : Bool)
    (fuel : Nat) : Except OrchError (Option OrchestrationResult) :=
  let intent := C.parseIntent request
  let plan := C.createPlan intent
  let safety := C.reviewSafety plan
  if safety.approved_steps.isEmpty && !plan.steps.isEmpty then
    Except.error (OrchError.allBlocked "All plan steps were blocked by safety checks")
  else if execute && !safety.approved_steps.isEmpty then
    let pending := plan.steps.filter
      (fun s => (safety.approved_steps.map PlanStep.id).contains s.id)
    match orchLoop C intent fuel plan safety [] [] [] pending with
    | Except.error e => Except.error e
    | Except.ok Option.none => Except.ok Option.none
    | Except.ok (Option.some final) =>
      Except.ok (Option.some
        { intent := intent, plan := final.plan, safety := final.safety,
          execution := final.executed, reviews := final.reviews })
  else
    let reviews := if !execute then [(C.reviewExec intent plan []).1] else []
    Except.ok (Option.some
      { intent := intent, plan := plan, safety := safety, execution := [],
        reviews := reviews })

/-- The plan produced for a request before the initial safety review. -/
def initialPlan (C : Components) (request : String) : ActionPlan :=
  C.createPlan (C.parseIntent request)

/-- The initial safety review of that plan. -/
def initialSafety (C : Components) (request : String) : SafetyReport :=
  C.reviewSafety (initialPlan C request)

/-- The failure condition at the initial safety review: a non-empty plan
with zero approved steps. -/
def InitialAllBlocked (C : Components) (request : String) : Prop :=
  (initialSafety C request).approved_steps = [] ∧ (initialPlan C request).steps ≠ []

/-- The initial pending queue: approved steps of the plan in plan order. -/
def initialPending (C : Components) (request : String) : List PlanStep :=
  (initialPlan C request).steps.filter
    (fun s => ((initialSafety C request).approved_steps.map PlanStep.id).contains s.id)

/-- The failure condition inside the loop: within the fuel bound, some
replan left zero approved steps on a non-empty plan. -/
def ReplanAllBlocked (C : Components) (request : String) (fuel : Nat) : Prop :=
  orchLoopBad C (C.parseIntent request) fuel (initialPlan C request)
    (initialSafety C request) [] [] (initialPending C request) = true

theorem orchLoop_error_iff_bad (C : Components) (intent : Intent) :
    ∀ (fuel : Nat) (plan : ActionPlan) (safety : SafetyReport) (completed : List String)
      (executed : List ExecutionResult) (reviews : List PlanReview) (pending : List PlanStep),
      (∃ e, orchLoop C intent fuel plan safety completed executed reviews pending =
        Except.error e) ↔
      orchLoopBad C intent fuel plan safety completed executed pending = true := by
  intro fuel
  induction fuel with
  | zero =>
    intro plan safety completed executed reviews pending
    simp [orchLoop, orchLoopBad]
  | succ n ih =>
    intro plan safety completed executed reviews pending
    cases pending with
    | nil => simp [orchLoop, orchLoopBad]
    | cons step rest =>
      simp only [orchLoop, orchLoopBad]
      by_cases h1 : completed.contains step.id = true
      · rw [if_pos h1, if_pos h1]
        exact ih plan safety completed executed reviews rest
      · rw [if_neg h1, if_neg h1]
        by_cases h2 : (C.reviewExec intent plan (executed ++ [C.execStep step])).2 = true
        · rw [if_pos h2, if_pos h2]
          by_cases h3 :
              ((C.reviewSafety (C.reviewExec intent plan
                (executed ++ [C.execStep step])).1.plan).approved_steps.isEmpty &&
               !(C.reviewExec intent plan
                (executed ++ [C.execStep step])).1.plan.steps.isEmpty) = true
          · rw [if_pos h3, if_pos h3]
            simp
          · rw [if_neg h3, if_neg h3]
            by_cases h4 : (C.reviewExec intent plan
                (executed ++ [C.execStep step])).1.complete = true
            · rw [if_pos h4, if_pos h4]
              simp
            · rw [if_neg h4, if_neg h4]
              exact ih _ _ _ _ _ _
        · rw [if_neg h2, if_neg h2]
          by_cases h4 : (C.reviewExec intent plan
              (executed ++ [C.execStep step])).1.complete = true
          · rw [if_pos h4, if_pos h4]
            simp
          · rw [if_neg h4, if_neg h4]
            exact ih _ _ _ _ _ _

theorem orchLoop_error_msg (C : Components) (intent : Intent) :
    ∀ (fuel : Nat) (plan : ActionPlan) (safety : SafetyReport) (completed : List String)
      (executed : List ExecutionResult) (reviews : List PlanReview) (pending : List PlanStep)
      (e : OrchError),
      orchLoop C intent fuel plan safety completed executed reviews pending =
        Except.error e →
      e = OrchError.allBlocked "All plan steps were blocked after planner review" := by
  intro fuel
  induction fuel with
  | zero =>
    intro plan safety completed executed reviews pending e h
    exact absurd h (by simp [orchLoop])
  | succ n ih =>
    intro plan safety completed executed reviews pending e h
    cases pending with
    | nil => exact absurd h (by simp [orchLoop])
    | cons step rest =>
      simp only [orchLoop] at h
      by_cases h1 : completed.contains step.id = true
      · rw [if_pos h1] at h
        exact ih _ _ _ _ _ _ _ h
      · rw [if_neg h1] at h
        by_cases h2 : (C.reviewExec intent plan (executed ++ [C.execStep step])).2 = true
        · rw [if_pos h2] at h
          by_cases h3 :
              ((C.reviewSafety (C.reviewExec intent plan
                (executed ++ [C.execStep step])).1.plan).approved_steps.isEmpty &&
               !(C.reviewExec intent plan
                (executed ++ [C.execStep step])).1.plan.steps.isEmpty) = true
          · rw [if_pos h3] at h
            cases h
            rfl
          · rw [if_neg h3] at h
            by_cases h4 : (C.reviewExec intent plan
                (executed ++ [C.execStep step])).1.complete = true
            · rw [if_pos h4] at h
              exact absurd h (by simp)
            · rw [if_neg h4] at h
              exact ih _ _ _ _ _ _ _ h
        · rw [if_neg h2] at h
          by_cases h4 : (C.reviewExec intent plan
              (executed ++ [C.execStep step])).1.complete = true
          · rw [if_pos h4] at h
            exact absurd h (by simp)
          · rw [if_neg h4] at h
            exact ih _ _ _ _ _ _ _ h

theorem orchLoopBad_nil_pending (C : Components) (intent : Intent) (fuel : Nat)
    (plan : ActionPlan) (safety : SafetyReport) :
    orchLoopBad C intent fuel plan safety [] [] [] = false := by
  cases fuel <;> simp [orchLoopBad]

/-- **C2.**  `orchestrate` fails the whole call with an
orchestration-level error exactly when the current plan is non-empty and
the safety review approves zero of its steps — at the initial safety
review (in which case no step is executed: the outcome is identical for
every executor) or after a mid-loop replan; in every other case the
caller receives `.ok` — a complete `OrchestrationResult`, or `none`
exactly when the explicit fuel bound cut the source's unbounded loop
short. -/
theorem orchestrate_error_characterization (C : Components) (request : String)
    (execute : Bool) (fuel : Nat) :
    (orchestrate C request execute fuel =
        Except.error (OrchError.allBlocked "All plan steps were blocked by safety checks") ↔
      InitialAllBlocked C request) ∧
    (InitialAllBlocked C request →
      ∀ f, orchestrate { C with execStep := f } request execute fuel =
        Except.error (OrchError.allBlocked "All plan steps were blocked by safety checks")) ∧
    ((∃ e, orchestrate C request execute fuel = Except.error e) ↔
      (InitialAllBlocked C request ∨
        (execute = true ∧ ¬ InitialAllBlocked C request ∧ ReplanAllBlocked C request fuel))) ∧
    (¬(InitialAllBlocked C request ∨ ReplanAllBlocked C request fuel) →
      ∃ ropt, orchestrate C request execute fuel = Except.ok ropt) := by
  have hcond : InitialAllBlocked C request ↔
      ((initialSafety C request).approved_steps.isEmpty &&
        !(initialPlan C request).steps.isEmpty) = true := by
    rw [InitialAllBlocked, Bool.and_eq_true]
    constructor
    · rintro ⟨ha, hb⟩
      exact ⟨by simp [ha], by simp [hb]⟩
    · rintro ⟨ha, hb⟩
      exact ⟨by simpa using ha, by simpa using hb⟩
  by_cases hinit : InitialAllBlocked C request
  · have hc1 := hcond.mp hinit
    simp only [initialSafety, initialPlan] at hc1
    have herr : orchestrate C request execute fuel =
        Except.error (OrchError.allBlocked "All plan steps were blocked by safety checks") := by
      simp only [orchestrate]
      rw [if_pos hc1]
    refine ⟨⟨fun _ => hinit, fun _ => herr⟩, ?_, ?_, ?_⟩
    · intro _ f
      simp only [orchestrate]
      rw [if_pos hc1]
    · constructor
      · intro _; exact Or.inl hinit
      · intro _; exact ⟨_, herr⟩
    · intro hn
      exact absurd (Or.inl hinit) hn
  · have hc1 : ¬ ((C.reviewSafety (C.createPlan (C.parseIntent request))).approved_steps.isEmpty &&
        !(C.createPlan (C.parseIntent request)).steps.isEmpty) = true := by
      intro h
      exact hinit (hcond.mpr (by simpa [initialSafety, initialPlan] using h))
    by_cases hexec : (execute &&
        !(C.reviewSafety (C.createPlan (C.parseIntent request))).approved_steps.isEmpty) = true
    · have hloopshape : orchestrate C request execute fuel =
          (match orchLoop C (C.parseIntent request) fuel (initialPlan C request)
              (initialSafety C request) [] [] [] (initialPending C request) with
           | Except.error e => Except.error e
           | Except.ok Option.none => Except.ok Option.none
           | Except.ok (Option.some final) =>
             Except.ok (Option.some
               { intent := C.parseIntent request, plan := final.plan,
                 safety := final.safety, execution := final.executed,
                 reviews := final.reviews })) := by
        simp only [orchestrate]
        rw [if_neg hc1, if_pos hexec]
        rfl
      cases horch : orchLoop C (C.parseIntent request) fuel (initialPlan C request)
          (initialSafety C request) [] [] [] (initialPending C request) with
      | error e =>
        have hmsg := orchLoop_error_msg C (C.parseIntent request) fuel _ _ _ _ _ _ e horch
        have hres : orchestrate C request execute fuel = Except.error e := by
          rw [hloopshape, horch]
        have hbad : ReplanAllBlocked C request fuel :=
          (orchLoop_error_iff_bad C (C.parseIntent request) fuel _ _ _ _ _ _).mp ⟨e, horch⟩
        refine ⟨?_, ?_, ?_, ?_⟩
        · constructor
          · intro hi
            rw [hres] at hi
            injection hi with hi
            rw [hmsg] at hi
            injection hi with hi
            exact absurd hi (by decide)
          · intro hi; exact absurd hi hinit
        · intro hi; exact absurd hi hinit
        · constructor
          · intro _
            exact Or.inr ⟨((Bool.and_eq_true _ _).mp hexec).1, hinit, hbad⟩
          · intro _; exact ⟨e, hres⟩
        · intro hn
          exact absurd (Or.inr hbad) hn
      | ok ropt =>
        have hnbad : ¬ ReplanAllBlocked C request fuel := by
          intro hb
          rcases (orchLoop_error_iff_bad C (C.parseIntent request) fuel _ _ _ _ _ _).mpr hb
            with ⟨e, he⟩
          rw [horch] at he
          exact Except.noConfusion he
        have hok : ∃ r, orchestrate C request execute fuel = Except.ok r := by
          rw [hloopshape, horch]
          cases ropt with
          | none => exact ⟨_, rfl⟩
          | some final => exact ⟨_, rfl⟩
        refine ⟨?_, ?_, ?_, ?_⟩
        · constructor
          · intro hi
            rcases hok with ⟨r, hr⟩
            rw [hr] at hi
            exact Except.noConfusion hi
          · intro hi; exact absurd hi hinit
        · intro hi; exact absurd hi hinit
        · constructor
          · rintro ⟨e, he⟩
            rcases hok with ⟨r, hr⟩
            rw [hr] at he
            exact Except.noConfusion he
          · rintro (hi | ⟨_, _, hb⟩)
            · exact absurd hi hinit
            · exact absurd hb hnbad
        · intro _; exact hok
    · have hres : orchestrate C request execute fuel =
          Except.ok (Option.some
            { intent := C.parseIntent request, plan := initialPlan C request,
              safety := initialSafety C request, execution := [],
              reviews := if !execute then
                  [(C.reviewExec (C.parseIntent request) (initialPlan C request) []).1]
                else [] }) := by
        simp only [orchestrate]
        rw [if_neg hc1, if_neg hexec]
        rfl
      refine ⟨?_, ?_, ?_, ?_⟩
      · constructor
        · intro hi
          rw [hres] at hi
          exact Except.noConfusion hi
        · intro hi; exact absurd hi hinit
      · intro hi; exact absurd hi hinit
      · constructor
        · rintro ⟨e, he⟩
          rw [hres] at he
          exact Except.noConfusion he
        · rintro (hi | ⟨hex, _, hb⟩)
          · exact absurd hi hinit
          · exact absurd hb (by
              intro hbb
              rw [ReplanAllBlocked] at hbb
              have happ : (initialSafety C request).approved_steps = [] := by
                by_contra happ
                exact hexec (by
                  rw [Bool.and_eq_true]
                  exact ⟨hex, by simpa [initialSafety, initialPlan] using happ⟩)
              have hpend : initialPending C request = [] := by
                rw [initialPending, happ]
                simp
              rw [hpend, orchLoopBad_nil_pending] at hbb
              exact Bool.noConfusion hbb)
      · intro _
        exact ⟨_, hres⟩

/-- Concrete components for the C2 witness: the heuristic-shaped plan has
a single `system.shutdown` step, which the default safety checker (deny
list `("system.shutdown",)`) blocks. -/
def demoComponents : Components :=
  { parseIntent := fun request =>
      { raw_input := request, action := "demo", parameters := [], confidence := 0,
        reasoning := Option.none, context_snapshot := Option.none }
    createPlan := fun intent =>
      ⟨intent, [⟨"s1", "system.shutdown", "shut down", [], []⟩], Option.none⟩
    reviewSafety := fun plan => baselineReport {} plan
    execStep := fun step => ⟨step.id, "success", Option.none, Option.none⟩
    reviewExec := fun _ plan _ => (⟨plan, [], true, Option.none⟩, false) }

/-- Witness for C2: with `demoComponents` the initial review approves
zero steps of a non-empty plan, and `orchestrate` fails with the
orchestration-level error. -/
theorem orchestrate_error_characterization_witness :
    InitialAllBlocked demoComponents "turn it off" ∧
    orchestrate demoComponents "turn it off" true 5 =
      Except.error (OrchError.allBlocked "All plan steps were blocked by safety checks") := by
  have hinit : InitialAllBlocked demoComponents "turn it off" := by
    constructor
    · rfl
    · intro h
      exact List.noConfusion h
  exact ⟨hinit,
    (orchestrate_error_characterization demoComponents "turn it off" true 5).1.mpr hinit⟩

end Ainux
